import Mathlib

/-!
Verification development for the `sarracen` repository (2D SPH interpolation).

The two source files are shallowly embedded here:
* `src/sarracen/interpolate.py` — the function `interpolate2D`;
* `src/sarracen/sarracen_dataframe.py` — the `SarracenDataFrame` class
  (constructor / column identification, `calc_density`, the column-role
  setters and the kernel setter).

Modelling conventions:
* Python floats are modelled as `ℚ`.  Division by zero yields `0` (Lean's
  convention) where numpy would yield `inf`/`nan`; the claims settled below
  do not depend on the distinction (a particle with a zero denominator is
  dropped by the `weight > 0` filter in either semantics, and contributes
  nothing to the grid in both).
* A pandas `DataFrame` is a list of named columns, each a list of rationals
  (`DFrame`).  Column access by label is `dfGet`; a missing label is a
  `KeyError`.
* Fallible code returns `Except PyErr _`; `PyErr` distinguishes `ValueError`
  from `KeyError`, mirroring the exceptions the source raises.
* The output image is a total function `ℕ → ℕ → ℚ` (`Grid`), zero outside
  the written cells; `image[jpix][ipix] += v` becomes the pointwise update
  `addAt`.
* `np.rint` rounds half to even; `rint` below implements exactly that.
-/

namespace Sarracen

/-- Exception kind raised by the embedded Python code: `ValueError msg` or
`KeyError label`. -/
inductive PyErr where
  | valueError : String → PyErr
  | keyError : String → PyErr
deriving DecidableEq

/-- Modelled from the spec: the `sarracen.kernels` module is not under
`src/`, so the kernel descriptor follows the spec's §4.1 contract: a
dimensionality, a non-negative support radius multiple `radkernel`, and a
weight function.  `interpolate2D` only ever evaluates the weight at
`sqrt(q2)`, so the observable interface of the kernel here is the composite
`q2 ↦ w(sqrt(q2))`, recorded as the single field `wsq` (weight as a function
of the squared normalised distance). -/
structure BaseKernel where
  ndims : ℤ
  radkernel : ℚ
  radkernel_nonneg : 0 ≤ radkernel
  wsq : ℚ → ℚ

/-- Modelled from the spec: the cubic-spline kernel of the missing
`sarracen.kernels` module; the spec fixes only its dimensionality default and
its support radius multiple (2.0).  No claim below evaluates its weight
profile, so the profile is left as the zero function. -/
def CubicSplineKernel : BaseKernel :=
  ⟨2, 2, by norm_num, fun _ => 0⟩

/-- A pandas-style dataframe: named columns of rationals, in insertion
order. -/
abbrev DFrame : Type := List (String × List ℚ)

/-- Column access by label (`data[c]`); `none` models a `KeyError`. -/
def dfGet (df : DFrame) (c : String) : Option (List ℚ) :=
  (df.find? (fun p => p.1 = c)).map (fun p => p.2)

/-- Column access wrapped as the exception pandas raises on a missing
label. -/
def getCol (df : DFrame) (c : String) : Except PyErr (List ℚ) :=
  match dfGet df c with
  | some l => Except.ok l
  | none => Except.error (PyErr.keyError c)

/-- One row of the cloned frame `parts` built at interpolate.py:50-55: the
columns `x`, `y`, `h`, `weight`, `term` (the `drop` at line 59 discards its
result, so `weight` remains a column). -/
structure Part where
  x : ℚ
  y : ℚ
  h : ℚ
  weight : ℚ
  term : ℚ
deriving DecidableEq

/-- Builds one row of `parts`: `weight = m / (rho * h**2)`,
`term = weight * target` (interpolate.py:54-55). -/
def mkPart (xv yv hv mv rhov tv : ℚ) : Part :=
  ⟨xv, yv, hv, mv / (rhov * hv ^ 2), mv / (rhov * hv ^ 2) * tv⟩

/-- Row-wise construction of the cloned frame `parts` from the six fetched
columns (interpolate.py:50-55). -/
def buildParts : List ℚ → List ℚ → List ℚ → List ℚ → List ℚ → List ℚ → List Part
  | xv :: xs, yv :: ys, hv :: hs, mv :: ms, rv :: rs, tv :: ts =>
      mkPart xv yv hv mv rv tv :: buildParts xs ys hs ms rs ts
  | _, _, _, _, _, _ => []

/-- Column labels of the cloned frame `parts`, in insertion order; the label
lookups `parts[x]` and `parts[y]` at interpolate.py:62-69 succeed exactly on
these labels. -/
def partsColumns : List String := ["x", "y", "h", "weight", "term"]

/-- Label lookup `parts[c]` on one row of the cloned frame. -/
def partsCol (p : Part) (c : String) : Option ℚ :=
  if c = "x" then some p.x
  else if c = "y" then some p.y
  else if c = "h" then some p.h
  else if c = "weight" then some p.weight
  else if c = "term" then some p.term
  else none

/-- Value of `parts[c]` on a row, defaulting to `0`; used only under the
guard `c ∈ partsColumns`. -/
def partsColD (p : Part) (c : String) : ℚ :=
  (partsCol p c).getD 0

/-- Round half to even, the semantics of `np.rint`. -/
def rint (q : ℚ) : ℤ :=
  if q - Int.floor q < 1 / 2 then Int.floor q
  else if 1 / 2 < q - Int.floor q then Int.floor q + 1
  else if Int.floor q % 2 = 0 then Int.floor q else Int.floor q + 1

/-- Pandas `Series.clip(lower, upper)` on an integer value. -/
def clipZ (v lo hi : ℤ) : ℤ := max lo (min v hi)

/-- Static arguments of one `interpolate2D` call (everything except the
particle data): axis labels, kernel, pixel sizes, grid origin and pixel
counts. -/
structure Config where
  x : String
  y : String
  kernel : BaseKernel
  pixwidthx : ℚ
  pixwidthy : ℚ
  xmin : ℚ
  ymin : ℚ
  pixcountx : ℤ
  pixcounty : ℤ

/-- Lower x-index bound of a particle's footprint (interpolate.py:62-63):
`rint((parts[x] - radkernel*h - xmin) / pixwidthx)` clipped to
`[0, pixcountx]`.  Note the centre comes from the label lookup `parts[x]`,
not from the `x` field. -/
def ipixmin (c : Config) (p : Part) : ℤ :=
  clipZ (rint ((partsColD p c.x - c.kernel.radkernel * p.h - c.xmin) / c.pixwidthx))
    0 c.pixcountx

/-- Column labels of the cloned frame at the moment of the `parts[y]` lookup
(interpolate.py:64): the assignment at line 62 has just created the column
`ipixmin`, so the y-axis label may additionally resolve to it. -/
def partsColumnsLine64 : List String := partsColumns ++ ["ipixmin"]

/-- The y-axis centre `parts[y]` (interpolate.py:64 and 68): the label is
looked up in the cloned frame as it stands after line 62, so the label
`ipixmin` resolves to the just-computed clipped lower x-bound of the
particle rather than to a position. -/
def yCenter (c : Config) (p : Part) : ℚ :=
  if c.y = "ipixmin" then ((ipixmin c p : ℤ) : ℚ) else partsColD p c.y

/-- Lower y-index bound (interpolate.py:64-65). -/
def jpixmin (c : Config) (p : Part) : ℤ :=
  clipZ (rint ((yCenter c p - c.kernel.radkernel * p.h - c.ymin) / c.pixwidthy))
    0 c.pixcounty

/-- Upper x-index bound (interpolate.py:66-67). -/
def ipixmax (c : Config) (p : Part) : ℤ :=
  clipZ (rint ((partsColD p c.x + c.kernel.radkernel * p.h - c.xmin) / c.pixwidthx))
    0 c.pixcountx

/-- Upper y-index bound (interpolate.py:68-69); the line-68 lookup
`parts[y]` reads the same column as at line 64 (the `ipixmin` column is not
modified in between). -/
def jpixmax (c : Config) (p : Part) : ℤ :=
  clipZ (rint ((yCenter c p + c.kernel.radkernel * p.h - c.ymin) / c.pixwidthy))
    0 c.pixcounty

/-- The x-indices the loops at interpolate.py:75 and 85 actually visit:
`range(int(ipixmin), int(ipixmax))`, i.e. the half-open integer interval. -/
def iVisited (c : Config) (p : Part) : List ℕ :=
  List.range' (ipixmin c p).toNat ((ipixmax c p).toNat - (ipixmin c p).toNat)

/-- The y-indices the loop at interpolate.py:79 visits. -/
def jVisited (c : Config) (p : Part) : List ℕ :=
  List.range' (jpixmin c p).toNat ((jpixmax c p).toNat - (jpixmin c p).toNat)

/-- The precomputed array `dx2i` (interpolate.py:74-76): zeros of length
`pixcountx`, filled on `[ipixmin, ipixmax)` with
`((xmin + (ipix + 0.5) * pixwidthx - part.x) ** 2) * (1 / part.h ** 2)`. -/
def dx2i (c : Config) (p : Part) (ipix : ℕ) : ℚ :=
  if ipixmin c p ≤ (ipix : ℤ) ∧ (ipix : ℤ) < ipixmax c p then
    ((c.xmin + ((ipix : ℚ) + 1 / 2) * c.pixwidthx - p.x) ^ 2) * (1 / p.h ^ 2)
  else 0

/-- The y-direction squared distance `dy2` (interpolate.py:81-83). -/
def dy2 (c : Config) (p : Part) (jpix : ℕ) : ℚ :=
  (c.ymin + ((jpix : ℚ) + 1 / 2) * c.pixwidthy - p.y) *
    (c.ymin + ((jpix : ℚ) + 1 / 2) * c.pixwidthy - p.y) * (1 / p.h ^ 2)

/-- The output image: a cell value for every pair of indices. -/
abbrev Grid : Type := ℕ → ℕ → ℚ

/-- The zero-initialised image (`np.zeros`, interpolate.py:47). -/
def zeroGrid : Grid := fun _ _ => 0

/-- The in-place accumulation `image[jpix][ipix] += v`. -/
def addAt (im : Grid) (j i : ℕ) (v : ℚ) : Grid :=
  fun j2 i2 => if j2 = j ∧ i2 = i then im j2 i2 + v else im j2 i2

/-- The nested pixel loops for one particle (interpolate.py:74-91): for each
visited `jpix` and `ipix`, accumulate
`part.term * kernel.w(sqrt(dx2i[ipix] + dy2))`. -/
def accumPart (c : Config) (im : Grid) (p : Part) : Grid :=
  (jVisited c p).foldl
    (fun im1 jpix =>
      (iVisited c p).foldl
        (fun im2 ipix =>
          addAt im2 jpix ipix (p.term * c.kernel.wsq (dx2i c p ipix + dy2 c p jpix)))
        im1)
    im

/-- The rows of the cloned frame surviving the filter
`parts[parts['weight'] > 0]` (interpolate.py:57-58). -/
def retainedParts (xs ys hs ms rhos ts : List ℚ) : List Part :=
  (buildParts xs ys hs ms rhos ts).filter (fun p => 0 < p.weight)

/-- The accumulation phase (interpolate.py:72-91): the particle loop folded
over the zero-initialised image. -/
def finalGrid (c : Config) (parts : List Part) : Grid :=
  parts.foldl (accumPart c) zeroGrid

/-- Shallow embedding of `interpolate2D` (interpolate.py:7-93).  Validation
(lines 35-45) precedes the creation of the output array (line 47) and all
data access; the cloned frame is built and filtered (lines 50-58); the label
lookup `parts[x]` of line 62 raises `KeyError` unless `x` names a column of
the cloned frame, and the lookup `parts[y]` of line 64 runs after line 62
has created the `ipixmin` column, so it accepts the cloned columns or
`ipixmin`; the accumulation loops (lines 72-91) then fold over the retained
particles. -/
def interpolate2D (data : DFrame) (x y target : String) (kernel : BaseKernel)
    (pixwidthx pixwidthy : ℚ) (xmin ymin : ℚ) (pixcountx pixcounty : ℤ) :
    Except PyErr Grid :=
  if pixwidthx ≤ 0 then Except.error (PyErr.valueError "pixwidthx must be greater than zero!")
  else if pixwidthy ≤ 0 then Except.error (PyErr.valueError "pixwidthy must be greater than zero!")
  else if pixcountx ≤ 0 then Except.error (PyErr.valueError "pixcountx must be greater than zero!")
  else if pixcounty ≤ 0 then Except.error (PyErr.valueError "pixcounty must be greater than zero!")
  else if kernel.ndims ≠ 2 then Except.error (PyErr.valueError "Kernel must be two-dimensional!")
  else do
    let xs ← getCol data x
    let ys ← getCol data y
    let hs ← getCol data "h"
    let ms ← getCol data "m"
    let rhos ← getCol data "rho"
    let ts ← getCol data target
    if x ∈ partsColumns then
      if y ∈ partsColumnsLine64 then
        Except.ok (finalGrid
          ⟨x, y, kernel, pixwidthx, pixwidthy, xmin, ymin, pixcountx, pixcounty⟩
          (retainedParts xs ys hs ms rhos ts))
      else Except.error (PyErr.keyError y)
    else Except.error (PyErr.keyError x)

/-- Extracts the image from a successful call; a failed call has no output
array, so the zero grid stands in as the (never used) default. -/
def getGrid (e : Except PyErr Grid) : Grid :=
  match e with
  | Except.ok g => g
  | Except.error _ => zeroGrid

/-- Whether a call raised no exception. -/
def isOk (e : Except PyErr Grid) : Bool :=
  match e with
  | Except.ok _ => true
  | Except.error _ => false

/-! Embedding of `src/sarracen/sarracen_dataframe.py`. -/

/-- Column labels of a dataframe, in order. -/
def dfCols (df : DFrame) : List String :=
  df.map (fun p => p.1)

/-- Membership test `label in self` for a possibly-`None` label: `None` is
never a column name, so it tests false. -/
def optMem (o : Option String) (cs : List String) : Bool :=
  match o with
  | some c => decide (c ∈ cs)
  | none => false

/-- Lookup of a scalar in the `params` dictionary. -/
def paramGet (ps : List (String × ℚ)) (k : String) : Option ℚ :=
  (ps.find? (fun p => p.1 = k)).map (fun p => p.2)

/-- Column assignment `self[c] = v`: overwrite an existing column in place,
otherwise append a new column. -/
def dfSet (df : DFrame) (c : String) (v : List ℚ) : DFrame :=
  if (dfGet df c).isSome then df.map (fun p => if p.1 = c then (c, v) else p)
  else df ++ [(c, v)]

/-- State of a `SarracenDataFrame`: the underlying dataframe, the `params`
dictionary, the column-role labels, and the default kernel
(sarracen_dataframe.py:24-127). -/
structure SarracenDataFrame where
  df : DFrame
  params : List (String × ℚ)
  xcol : Option String
  ycol : Option String
  zcol : Option String
  hcol : Option String
  mcol : Option String
  rhocol : Option String
  vxcol : Option String
  vycol : Option String
  vzcol : Option String
  dustfracscol : List String
  kernel : BaseKernel

/-- The `xcol` setter (sarracen_dataframe.py:617-620): stores the new label
only if it is an existing column or `None`. -/
def setXcol (s : SarracenDataFrame) (new_col : Option String) : SarracenDataFrame :=
  if optMem new_col (dfCols s.df) ∨ new_col = none then { s with xcol := new_col } else s

/-- The `ycol` setter (sarracen_dataframe.py:632-635). -/
def setYcol (s : SarracenDataFrame) (new_col : Option String) : SarracenDataFrame :=
  if optMem new_col (dfCols s.df) ∨ new_col = none then { s with ycol := new_col } else s

/-- The `zcol` setter (sarracen_dataframe.py:647-650). -/
def setZcol (s : SarracenDataFrame) (new_col : Option String) : SarracenDataFrame :=
  if optMem new_col (dfCols s.df) ∨ new_col = none then { s with zcol := new_col } else s

/-- The `hcol` setter (sarracen_dataframe.py:662-665). -/
def setHcol (s : SarracenDataFrame) (new_col : Option String) : SarracenDataFrame :=
  if optMem new_col (dfCols s.df) ∨ new_col = none then { s with hcol := new_col } else s

/-- The `mcol` setter (sarracen_dataframe.py:677-680). -/
def setMcol (s : SarracenDataFrame) (new_col : Option String) : SarracenDataFrame :=
  if optMem new_col (dfCols s.df) ∨ new_col = none then { s with mcol := new_col } else s

/-- The `rhocol` setter (sarracen_dataframe.py:692-695). -/
def setRhocol (s : SarracenDataFrame) (new_col : Option String) : SarracenDataFrame :=
  if optMem new_col (dfCols s.df) ∨ new_col = none then { s with rhocol := new_col } else s

/-- The `vxcol` setter (sarracen_dataframe.py:708-711). -/
def setVxcol (s : SarracenDataFrame) (new_col : Option String) : SarracenDataFrame :=
  if optMem new_col (dfCols s.df) ∨ new_col = none then { s with vxcol := new_col } else s

/-- The `vycol` setter (sarracen_dataframe.py:724-727). -/
def setVycol (s : SarracenDataFrame) (new_col : Option String) : SarracenDataFrame :=
  if optMem new_col (dfCols s.df) ∨ new_col = none then { s with vycol := new_col } else s

/-- The `vzcol` setter (sarracen_dataframe.py:740-743). -/
def setVzcol (s : SarracenDataFrame) (new_col : Option String) : SarracenDataFrame :=
  if optMem new_col (dfCols s.df) ∨ new_col = none then { s with vzcol := new_col } else s

/-- A Python object assigned to the `kernel` property: either an actual
kernel, or anything else. -/
inductive PyObj where
  | ofKernel : BaseKernel → PyObj
  | nonKernel : PyObj

/-- The `kernel` setter (sarracen_dataframe.py:765-768): the stored kernel
changes only when the assigned object is a `BaseKernel` instance. -/
def setKernel (s : SarracenDataFrame) (v : PyObj) : SarracenDataFrame :=
  match v with
  | PyObj.ofKernel k => { s with kernel := k }
  | PyObj.nonKernel => s

/-- The method `get_dim` (sarracen_dataframe.py:785-794): `3` if a z-column
is set, else `2`. -/
def get_dim (s : SarracenDataFrame) : ℕ :=
  if s.zcol.isSome then 3 else 2

/-- The method `_identify_special_columns` (sarracen_dataframe.py:133-198);
each detected label is stored through the corresponding property setter. -/
def identifySpecialColumns (s0 : SarracenDataFrame) : SarracenDataFrame :=
  let cs := dfCols s0.df
  let s1 := if "x" ∈ cs then setXcol s0 (some "x")
    else if "rx" ∈ cs then setXcol s0 (some "rx")
    else if 0 < cs.length then setXcol s0 (some (cs.getD 0 "")) else s0
  let s2 := if "y" ∈ cs then setYcol s1 (some "y")
    else if "ry" ∈ cs then setYcol s1 (some "ry")
    else if 1 < cs.length then setYcol s1 (some (cs.getD 1 "")) else s1
  let s3 := if "z" ∈ cs then setZcol s2 (some "z")
    else if "rz" ∈ cs then setZcol s2 (some "rz") else s2
  let s4 := if "h" ∈ cs then setHcol s3 (some "h") else s3
  let s5 := if "m" ∈ cs then setMcol s4 (some "m")
    else if "mass" ∈ cs then setMcol s4 (some "mass") else s4
  let s6 := if "rho" ∈ cs then setRhocol s5 (some "rho")
    else if "density" ∈ cs then setRhocol s5 (some "density") else s5
  let s7 := if "vx" ∈ cs then setVxcol s6 (some "vx") else s6
  let s8 := if "vy" ∈ cs then setVycol s7 (some "vy") else s7
  let s9 := if "vz" ∈ cs then setVzcol s8 (some "vz") else s8
  { s9 with dustfracscol := cs.filter (fun c => c.startsWith "dustfrac") }

/-- The `SarracenDataFrame` constructor (sarracen_dataframe.py:49-127): all
role labels start as `None`, special columns are then identified, and the
default kernel is a cubic spline.  Construction is total: a dataset lacking
mass, density or smoothing-length sources constructs without error. -/
def mkSarracenDataFrame (data : DFrame) (params : List (String × ℚ)) : SarracenDataFrame :=
  identifySpecialColumns
    ⟨data, params, none, none, none, none, none, none, none, none, none, [], CubicSplineKernel⟩

/-- The method `calc_density` (sarracen_dataframe.py:218-259): raises
`KeyError` when the smoothing-length column, `hfact`, or every mass source
is missing; otherwise adds the column
`rho = mass * (hfact / h) ** get_dim()`, with per-particle mass preferred
over `params['mass']`, and stores the label through the `rhocol` setter. -/
def calc_density (s : SarracenDataFrame) : Except PyErr SarracenDataFrame :=
  if ¬ optMem s.hcol (dfCols s.df) then
    Except.error (PyErr.keyError "Missing smoothing length data in this SarracenDataFrame")
  else if ¬ (paramGet s.params "hfact").isSome then
    Except.error (PyErr.keyError "hfact missing from params in this SarracenDataFrame.")
  else if ¬ optMem s.mcol (dfCols s.df) ∧ ¬ (paramGet s.params "mass").isSome then
    Except.error (PyErr.keyError "Missing particle mass data in this SarracenDataFrame.")
  else
    let hs := (dfGet s.df (s.hcol.getD "")).getD []
    let hfact := (paramGet s.params "hfact").getD 0
    let rho :=
      if optMem s.mcol (dfCols s.df) then
        List.zipWith (fun mv hv => mv * (hfact / hv) ^ get_dim s)
          ((dfGet s.df (s.mcol.getD "")).getD []) hs
      else hs.map (fun hv => (paramGet s.params "mass").getD 0 * (hfact / hv) ^ get_dim s)
    Except.ok (setRhocol { s with df := dfSet s.df "rho" rho } (some "rho"))

/-! Lemmas about the accumulation loops: the imperative nested folds compute,
cell by cell, a sum of per-particle contributions. -/

/-- The contribution one retained particle adds to one cell across the whole
accumulation: the kernel-weighted term if both loop ranges cover the cell,
zero otherwise. -/
def partTouch (c : Config) (p : Part) (j i : ℕ) : ℚ :=
  if j ∈ jVisited c p ∧ i ∈ iVisited c p then
    p.term * c.kernel.wsq (dx2i c p i + dy2 c p j)
  else 0

theorem addAt_apply (im : Grid) (j i : ℕ) (v : ℚ) (j2 i2 : ℕ) :
    addAt im j i v j2 i2 = if j2 = j ∧ i2 = i then im j2 i2 + v else im j2 i2 := rfl

/-- A fold whose step adds `inc a` to a fixed cell evaluates there to the
initial value plus the sum of the increments. -/
theorem foldl_pointwise {α : Type} (g : Grid → α → Grid) (inc : α → ℚ) (j i : ℕ)
    (h : ∀ im a, g im a j i = im j i + inc a) :
    ∀ (L : List α) (im : Grid), (L.foldl g im) j i = im j i + (L.map inc).sum := by
  intro L
  induction L with
  | nil => intro im; simp
  | cons a L ih =>
      intro im
      simp only [List.foldl_cons, List.map_cons, List.sum_cons, ih, h]
      ring

/-- Summing `if c = i then f i else 0` over a duplicate-free list collapses
to a membership test. -/
theorem sum_map_ite_eq (f : ℕ → ℚ) (cVal : ℕ) :
    ∀ (L : List ℕ), L.Nodup →
      (L.map (fun i => if cVal = i then f i else 0)).sum = if cVal ∈ L then f cVal else 0 := by
  intro L
  induction L with
  | nil => simp
  | cons a L ih =>
      intro hnd
      rcases List.nodup_cons.mp hnd with ⟨ha, hnd2⟩
      by_cases hc : cVal = a
      · subst hc
        simp [ih hnd2, ha]
      · simp [hc, ih hnd2]

theorem nodup_iVisited (c : Config) (p : Part) : (iVisited c p).Nodup :=
  List.nodup_range' _ _

theorem nodup_jVisited (c : Config) (p : Part) : (jVisited c p).Nodup :=
  List.nodup_range' _ _

/-- Pointwise description of the innermost pixel loop (interpolate.py:85-91)
at a fixed `jpix`. -/
theorem innerFold_apply (c : Config) (p : Part) (jpix : ℕ) (im1 : Grid) (j i : ℕ) :
    ((iVisited c p).foldl
      (fun im2 ipix =>
        addAt im2 jpix ipix (p.term * c.kernel.wsq (dx2i c p ipix + dy2 c p jpix)))
      im1) j i
    = im1 j i + (if j = jpix ∧ i ∈ iVisited c p then
        p.term * c.kernel.wsq (dx2i c p i + dy2 c p jpix) else 0) := by
  rw [foldl_pointwise _
    (fun ipix => if j = jpix ∧ i = ipix then
      p.term * c.kernel.wsq (dx2i c p ipix + dy2 c p jpix) else 0) j i ?hstep]
  case hstep =>
    intro im2 ipix
    rw [addAt_apply]
    by_cases hji : j = jpix ∧ i = ipix
    · rcases hji with ⟨hj2, hi2⟩
      subst hj2; subst hi2
      simp
    · simp [hji]
  by_cases hj : j = jpix
  · subst hj
    simp only [eq_self_iff_true, true_and]
    rw [sum_map_ite_eq (fun ipix => p.term * c.kernel.wsq (dx2i c p ipix + dy2 c p j)) i
      (iVisited c p) (nodup_iVisited c p)]
  · simp [hj]

/-- Pointwise description of the two nested pixel loops for one particle. -/
theorem accumPart_apply (c : Config) (im : Grid) (p : Part) (j i : ℕ) :
    accumPart c im p j i = im j i + partTouch c p j i := by
  unfold accumPart
  rw [foldl_pointwise _
    (fun jpix => if j = jpix ∧ i ∈ iVisited c p then
      p.term * c.kernel.wsq (dx2i c p i + dy2 c p jpix) else 0) j i
    (fun im1 jpix => innerFold_apply c p jpix im1 j i)]
  by_cases hi : i ∈ iVisited c p
  · simp only [hi, and_true]
    rw [sum_map_ite_eq (fun jpix => p.term * c.kernel.wsq (dx2i c p i + dy2 c p jpix)) j
      (jVisited c p) (nodup_jVisited c p)]
    simp [partTouch, hi]
  · simp [partTouch, hi]

/-- The final image, cell by cell: the sum over retained particles of their
contributions. -/
theorem finalGrid_apply (c : Config) (parts : List Part) (j i : ℕ) :
    finalGrid c parts j i = (parts.map (fun p => partTouch c p j i)).sum := by
  unfold finalGrid
  rw [foldl_pointwise (accumPart c) (fun p => partTouch c p j i) j i
    (fun im p => accumPart_apply c im p j i)]
  simp [zeroGrid]

theorem clipZ_lower (v hi : ℤ) : 0 ≤ clipZ v 0 hi := le_max_left _ _

theorem clipZ_upper (v hi : ℤ) (h : 0 ≤ hi) : clipZ v 0 hi ≤ hi :=
  max_le h (min_le_right _ _)

/-- Membership in the x-loop range, as inequalities on the clipped index
bounds. -/
theorem mem_iVisited (c : Config) (p : Part) (i : ℕ) :
    i ∈ iVisited c p ↔ ipixmin c p ≤ (i : ℤ) ∧ (i : ℤ) < ipixmax c p := by
  unfold iVisited
  rw [List.mem_range'_1]
  have hA : (0 : ℤ) ≤ ipixmin c p := clipZ_lower _ _
  have hB : (0 : ℤ) ≤ ipixmax c p := clipZ_lower _ _
  omega

/-- Membership in the y-loop range. -/
theorem mem_jVisited (c : Config) (p : Part) (j : ℕ) :
    j ∈ jVisited c p ↔ jpixmin c p ≤ (j : ℤ) ∧ (j : ℤ) < jpixmax c p := by
  unfold jVisited
  rw [List.mem_range'_1]
  have hA : (0 : ℤ) ≤ jpixmin c p := clipZ_lower _ _
  have hB : (0 : ℤ) ≤ jpixmax c p := clipZ_lower _ _
  omega

/-- When validation and every column lookup succeed, `interpolate2D` returns
the accumulated image over the retained particles.  The y-axis label is
looked up at line 64, after the `ipixmin` column exists. -/
theorem interpolate2D_eq_ok
    (data : DFrame) (x y target : String) (K : BaseKernel)
    (pwx pwy xmin ymin : ℚ) (pcx pcy : ℤ)
    (xs ys hs ms rhos ts : List ℚ)
    (h1 : 0 < pwx) (h2 : 0 < pwy) (h3 : 0 < pcx) (h4 : 0 < pcy) (h5 : K.ndims = 2)
    (hx : dfGet data x = some xs) (hy : dfGet data y = some ys)
    (hh : dfGet data "h" = some hs) (hm : dfGet data "m" = some ms)
    (hr : dfGet data "rho" = some rhos) (ht : dfGet data target = some ts)
    (hxc : x ∈ partsColumns) (hyc : y ∈ partsColumnsLine64) :
    interpolate2D data x y target K pwx pwy xmin ymin pcx pcy =
      Except.ok (finalGrid ⟨x, y, K, pwx, pwy, xmin, ymin, pcx, pcy⟩
        (retainedParts xs ys hs ms rhos ts)) := by
  have n1 : ¬ pwx ≤ 0 := not_le.mpr h1
  have n2 : ¬ pwy ≤ 0 := not_le.mpr h2
  have n3 : ¬ pcx ≤ 0 := not_le.mpr h3
  have n4 : ¬ pcy ≤ 0 := not_le.mpr h4
  simp [interpolate2D, getCol, hx, hy, hh, hm, hr, ht, n1, n2, n3, n4, h5, hxc, hyc,
    Bind.bind, Except.bind]

theorem rint_ge_floor (q : ℚ) : Int.floor q ≤ rint q := by
  unfold rint
  split_ifs <;> omega

theorem rint_le_floor_add_one (q : ℚ) : rint q ≤ Int.floor q + 1 := by
  unfold rint
  split_ifs <;> omega

/-- Rounding half to even is monotone. -/
theorem rint_le_rint {a b : ℚ} (hab : a ≤ b) : rint a ≤ rint b := by
  have hfl : Int.floor a ≤ Int.floor b := Int.floor_le_floor hab
  by_cases heq : Int.floor a = Int.floor b
  · unfold rint
    rw [heq]
    split_ifs <;> first | omega | linarith
  · have hlt : Int.floor a < Int.floor b := lt_of_le_of_ne hfl heq
    calc rint a ≤ Int.floor a + 1 := rint_le_floor_add_one a
      _ ≤ Int.floor b := by omega
      _ ≤ rint b := rint_ge_floor b

/-- With a non-negative support radius and a non-positive smoothing length,
the x-index range collapses. -/
theorem ipix_range_empty_of_h_nonpos (c : Config) (p : Part)
    (hpw : 0 < c.pixwidthx) (hh : p.h ≤ 0) : ipixmax c p ≤ ipixmin c p := by
  have hrk : c.kernel.radkernel * p.h ≤ 0 :=
    mul_nonpos_iff.mpr (Or.inl ⟨c.kernel.radkernel_nonneg, hh⟩)
  have harg : (partsColD p c.x + c.kernel.radkernel * p.h - c.xmin) / c.pixwidthx ≤
      (partsColD p c.x - c.kernel.radkernel * p.h - c.xmin) / c.pixwidthx :=
    (div_le_div_iff_of_pos_right hpw).mpr (by linarith)
  have hr := rint_le_rint harg
  unfold ipixmin ipixmax clipZ
  omega

/-- Summing over the filtered list equals summing a guarded contribution
over the whole list. -/
theorem sum_filter_weight (L : List Part) (f : Part → ℚ) :
    ((L.filter (fun p => 0 < p.weight)).map f).sum =
      (L.map (fun p => if 0 < p.weight then f p else 0)).sum := by
  induction L with
  | nil => simp
  | cons a L ih =>
      by_cases hw : 0 < a.weight <;> simp [List.filter_cons, hw, ih]

/-! Claim-side definitions and the claim theorems.  Definitions prefixed
with `claimed` follow the spec's words, to be compared with the
source-derived definitions above. -/

/-- Squared normalised distance as the spec words it: the sum over the two
axes of the squared distance from the cell centre
`origin + (index + 0.5) * cell width` to the particle position, divided by
`h^2`. -/
def claimedQ2 (c : Config) (p : Part) (j i : ℕ) : ℚ :=
  (c.xmin + ((i : ℚ) + 1 / 2) * c.pixwidthx - p.x) ^ 2 / p.h ^ 2 +
    (c.ymin + ((j : ℚ) + 1 / 2) * c.pixwidthy - p.y) ^ 2 / p.h ^ 2

/-- The grid as the spec words it: per cell, the sum over retained particles
of `term * w(sqrt(q2))` over the candidate cells of each particle's index
ranges, starting from zero. -/
def claimedGrid (c : Config) (parts : List Part) : Grid := fun j i =>
  (parts.map (fun p =>
    if j ∈ jVisited c p ∧ i ∈ iVisited c p then
      p.term * c.kernel.wsq (claimedQ2 c p j i)
    else 0)).sum

/-- The source's per-particle contribution (through the precomputed `dx2i`
array) coincides with the spec's direct squared-distance formula. -/
theorem partTouch_eq_claimed (c : Config) (p : Part) (j i : ℕ) :
    partTouch c p j i =
      if j ∈ jVisited c p ∧ i ∈ iVisited c p then
        p.term * c.kernel.wsq (claimedQ2 c p j i)
      else 0 := by
  unfold partTouch
  by_cases hc : j ∈ jVisited c p ∧ i ∈ iVisited c p
  · rcases hc with ⟨hj, hi⟩
    simp only [hj, hi, and_self, if_true]
    have harg : dx2i c p i + dy2 c p j = claimedQ2 c p j i := by
      rw [dx2i, if_pos ((mem_iVisited c p i).mp hi)]
      unfold dy2 claimedQ2
      ring
    rw [harg]
  · simp [hc]

/-- Claim C1: for every call to `interpolate2D` that passes validation, the
value accumulated into each candidate cell of each retained particle is
`term * w(sqrt(q2))` with `q2` the sum over the two axes of the squared
distance from the cell centre `origin + (index + 0.5) * cell width` to the
particle position, divided by `h^2` (the x-axis terms being the precomputed
`dx2i` array); the final grid is the sum of these contributions over all
retained particles and candidate cells, starting from a zero-initialised
array. -/
theorem interpolate2D_cell_values
    (data : DFrame) (x y target : String) (K : BaseKernel)
    (pwx pwy xmin ymin : ℚ) (pcx pcy : ℤ)
    (xs ys hs ms rhos ts : List ℚ)
    (h1 : 0 < pwx) (h2 : 0 < pwy) (h3 : 0 < pcx) (h4 : 0 < pcy) (h5 : K.ndims = 2)
    (hx : dfGet data x = some xs) (hy : dfGet data y = some ys)
    (hh : dfGet data "h" = some hs) (hm : dfGet data "m" = some ms)
    (hr : dfGet data "rho" = some rhos) (ht : dfGet data target = some ts)
    (hxc : x ∈ partsColumns) (hyc : y ∈ partsColumns) :
    ∃ img : Grid,
      interpolate2D data x y target K pwx pwy xmin ymin pcx pcy = Except.ok img ∧
      ∀ j i : ℕ, img j i =
        claimedGrid ⟨x, y, K, pwx, pwy, xmin, ymin, pcx, pcy⟩
          (retainedParts xs ys hs ms rhos ts) j i := by
  refine ⟨finalGrid ⟨x, y, K, pwx, pwy, xmin, ymin, pcx, pcy⟩
      (retainedParts xs ys hs ms rhos ts),
    interpolate2D_eq_ok data x y target K pwx pwy xmin ymin pcx pcy xs ys hs ms rhos ts
      h1 h2 h3 h4 h5 hx hy hh hm hr ht hxc (List.mem_append_left _ hyc), ?_⟩
  intro j i
  rw [finalGrid_apply]
  unfold claimedGrid
  exact congrArg List.sum
    (List.map_congr_left (fun p _ => partTouch_eq_claimed _ p j i))

/-- Fixed concrete input used by the witnesses: one particle at
`(3/2, 3/2)` with `h = 1/4`, `m = 1`, `rho = 1`, target value `1`. -/
def testData : DFrame :=
  [("x", [3 / 2]), ("y", [3 / 2]), ("h", [1 / 4]), ("m", [1]), ("rho", [1]), ("t", [1])]

/-- A concrete two-dimensional kernel for the witnesses. -/
def testKernel : BaseKernel :=
  ⟨2, 2, by norm_num, fun q2 => 1 - q2⟩

/-- Witness for C1 at the concrete input. -/
theorem interpolate2D_cell_values_witness :
    ∃ img : Grid,
      interpolate2D testData "x" "y" "t" testKernel 1 1 0 0 4 4 = Except.ok img ∧
      ∀ j i : ℕ, img j i =
        claimedGrid ⟨"x", "y", testKernel, 1, 1, 0, 0, 4, 4⟩
          (retainedParts [3 / 2] [3 / 2] [1 / 4] [1] [1] [1]) j i :=
  interpolate2D_cell_values testData "x" "y" "t" testKernel 1 1 0 0 4 4
    [3 / 2] [3 / 2] [1 / 4] [1] [1] [1]
    (by norm_num) (by norm_num) (by norm_num) (by norm_num) rfl
    rfl rfl rfl rfl rfl rfl (by simp [partsColumns]) (by simp [partsColumns])

/-- Claim C4: `interpolate2D` raises a `ValueError` whenever a pixel width
or pixel count is non-positive or the kernel is not two-dimensional, and the
error precedes creation of the output array (a failed call returns no
image); conversely, when all five conditions hold no `ValueError` is ever
raised (later failures are `KeyError`s). -/
theorem interpolate2D_validation
    (data : DFrame) (x y target : String) (K : BaseKernel)
    (pwx pwy xmin ymin : ℚ) (pcx pcy : ℤ) :
    ((pwx ≤ 0 ∨ pwy ≤ 0 ∨ pcx ≤ 0 ∨ pcy ≤ 0 ∨ K.ndims ≠ 2) →
      ∃ msg, interpolate2D data x y target K pwx pwy xmin ymin pcx pcy =
        Except.error (PyErr.valueError msg)) ∧
    (0 < pwx → 0 < pwy → 0 < pcx → 0 < pcy → K.ndims = 2 →
      ∀ msg, interpolate2D data x y target K pwx pwy xmin ymin pcx pcy ≠
        Except.error (PyErr.valueError msg)) := by
  constructor
  · intro hbad
    by_cases c1 : pwx ≤ 0
    · exact ⟨"pixwidthx must be greater than zero!", by simp [interpolate2D, c1]⟩
    by_cases c2 : pwy ≤ 0
    · exact ⟨"pixwidthy must be greater than zero!", by simp [interpolate2D, c1, c2]⟩
    by_cases c3 : pcx ≤ 0
    · exact ⟨"pixcountx must be greater than zero!", by simp [interpolate2D, c1, c2, c3]⟩
    by_cases c4 : pcy ≤ 0
    · exact ⟨"pixcounty must be greater than zero!", by simp [interpolate2D, c1, c2, c3, c4]⟩
    by_cases c5 : K.ndims = 2
    · rcases hbad with h | h | h | h | h <;> contradiction
    · exact ⟨"Kernel must be two-dimensional!", by simp [interpolate2D, c1, c2, c3, c4, c5]⟩
  · intro h1 h2 h3 h4 h5 msg
    unfold interpolate2D
    simp only [not_le.mpr h1, if_false, not_le.mpr h2, not_le.mpr h3, not_le.mpr h4, h5,
      ne_eq, not_true_eq_false]
    rcases hgx : dfGet data x with _ | xs
    · simp [getCol, hgx, Bind.bind, Except.bind]
    rcases hgy : dfGet data y with _ | ys
    · simp [getCol, hgx, hgy, Bind.bind, Except.bind]
    rcases hgh : dfGet data "h" with _ | hs
    · simp [getCol, hgx, hgy, hgh, Bind.bind, Except.bind]
    rcases hgm : dfGet data "m" with _ | ms
    · simp [getCol, hgx, hgy, hgh, hgm, Bind.bind, Except.bind]
    rcases hgr : dfGet data "rho" with _ | rhos
    · simp [getCol, hgx, hgy, hgh, hgm, hgr, Bind.bind, Except.bind]
    rcases hgt : dfGet data target with _ | ts
    · simp [getCol, hgx, hgy, hgh, hgm, hgr, hgt, Bind.bind, Except.bind]
    by_cases hxc : x ∈ partsColumns <;> by_cases hyc : y ∈ partsColumnsLine64 <;>
      simp [getCol, hgx, hgy, hgh, hgm, hgr, hgt, hxc, hyc, Bind.bind, Except.bind]

/-- Witness for C4: `pixcountx = 0` raises a `ValueError` (and so produces
no output array). -/
theorem interpolate2D_validation_witness :
    ∃ msg, interpolate2D testData "x" "y" "t" testKernel 1 1 0 0 0 4 =
      Except.error (PyErr.valueError msg) :=
  (interpolate2D_validation testData "x" "y" "t" testKernel 1 1 0 0 0 4).1
    (Or.inr (Or.inr (Or.inl le_rfl)))

/-- Claim C6: on a validated call, every index pair the accumulation loops
write is within `[0, pixcountx) × [0, pixcounty)` — for every particle
whatsoever — and every cell outside those bounds is still zero in the
output. -/
theorem interpolate2D_writes_in_bounds
    (data : DFrame) (x y target : String) (K : BaseKernel)
    (pwx pwy xmin ymin : ℚ) (pcx pcy : ℤ)
    (xs ys hs ms rhos ts : List ℚ)
    (h1 : 0 < pwx) (h2 : 0 < pwy) (h3 : 0 < pcx) (h4 : 0 < pcy) (h5 : K.ndims = 2)
    (hx : dfGet data x = some xs) (hy : dfGet data y = some ys)
    (hh : dfGet data "h" = some hs) (hm : dfGet data "m" = some ms)
    (hr : dfGet data "rho" = some rhos) (ht : dfGet data target = some ts)
    (hxc : x ∈ partsColumns) (hyc : y ∈ partsColumns) :
    (∀ (p : Part) (j i : ℕ),
      j ∈ jVisited ⟨x, y, K, pwx, pwy, xmin, ymin, pcx, pcy⟩ p →
      i ∈ iVisited ⟨x, y, K, pwx, pwy, xmin, ymin, pcx, pcy⟩ p →
      (j : ℤ) < pcy ∧ (i : ℤ) < pcx) ∧
    ∃ img : Grid,
      interpolate2D data x y target K pwx pwy xmin ymin pcx pcy = Except.ok img ∧
      ∀ j i : ℕ, (pcy ≤ (j : ℤ) ∨ pcx ≤ (i : ℤ)) → img j i = 0 := by
  have hbound : ∀ (p : Part) (j i : ℕ),
      j ∈ jVisited ⟨x, y, K, pwx, pwy, xmin, ymin, pcx, pcy⟩ p →
      i ∈ iVisited ⟨x, y, K, pwx, pwy, xmin, ymin, pcx, pcy⟩ p →
      (j : ℤ) < pcy ∧ (i : ℤ) < pcx := by
    intro p j i hj hi
    have hj2 := (mem_jVisited _ p j).mp hj
    have hi2 := (mem_iVisited _ p i).mp hi
    have hby : jpixmax ⟨x, y, K, pwx, pwy, xmin, ymin, pcx, pcy⟩ p ≤ pcy :=
      clipZ_upper _ _ h4.le
    have hbx : ipixmax ⟨x, y, K, pwx, pwy, xmin, ymin, pcx, pcy⟩ p ≤ pcx :=
      clipZ_upper _ _ h3.le
    omega
  refine ⟨hbound, finalGrid _ (retainedParts xs ys hs ms rhos ts),
    interpolate2D_eq_ok data x y target K pwx pwy xmin ymin pcx pcy xs ys hs ms rhos ts
      h1 h2 h3 h4 h5 hx hy hh hm hr ht hxc (List.mem_append_left _ hyc), ?_⟩
  intro j i hout
  rw [finalGrid_apply]
  apply List.sum_eq_zero
  intro v hv
  rcases List.mem_map.mp hv with ⟨p, _, rfl⟩
  unfold partTouch
  rw [if_neg]
  intro hcond
  rcases hbound p j i hcond.1 hcond.2 with ⟨hj3, hi3⟩
  rcases hout with hout | hout <;> omega

/-- Witness for C6 at the concrete input. -/
theorem interpolate2D_writes_in_bounds_witness :
    (∀ (p : Part) (j i : ℕ),
      j ∈ jVisited ⟨"x", "y", testKernel, 1, 1, 0, 0, 4, 4⟩ p →
      i ∈ iVisited ⟨"x", "y", testKernel, 1, 1, 0, 0, 4, 4⟩ p →
      (j : ℤ) < 4 ∧ (i : ℤ) < 4) ∧
    ∃ img : Grid,
      interpolate2D testData "x" "y" "t" testKernel 1 1 0 0 4 4 = Except.ok img ∧
      ∀ j i : ℕ, ((4 : ℤ) ≤ (j : ℤ) ∨ (4 : ℤ) ≤ (i : ℤ)) → img j i = 0 :=
  interpolate2D_writes_in_bounds testData "x" "y" "t" testKernel 1 1 0 0 4 4
    [3 / 2] [3 / 2] [1 / 4] [1] [1] [1]
    (by norm_num) (by norm_num) (by norm_num) (by norm_num) rfl
    rfl rfl rfl rfl rfl rfl (by simp [partsColumns]) (by simp [partsColumns])

/-- Claim C5: on a validated call, a particle whose smoothing length is
non-positive contributes exactly zero to every cell of the output grid, and
causes no error: the image is the guarded sum over all built particles, and
the guarded contribution of any particle with `h ≤ 0` vanishes
identically. -/
theorem nonpositive_h_contributes_nothing
    (data : DFrame) (x y target : String) (K : BaseKernel)
    (pwx pwy xmin ymin : ℚ) (pcx pcy : ℤ)
    (xs ys hs ms rhos ts : List ℚ)
    (h1 : 0 < pwx) (h2 : 0 < pwy) (h3 : 0 < pcx) (h4 : 0 < pcy) (h5 : K.ndims = 2)
    (hx : dfGet data x = some xs) (hy : dfGet data y = some ys)
    (hh : dfGet data "h" = some hs) (hm : dfGet data "m" = some ms)
    (hr : dfGet data "rho" = some rhos) (ht : dfGet data target = some ts)
    (hxc : x ∈ partsColumns) (hyc : y ∈ partsColumns) :
    ∃ img : Grid,
      interpolate2D data x y target K pwx pwy xmin ymin pcx pcy = Except.ok img ∧
      (∀ j i : ℕ, img j i =
        ((buildParts xs ys hs ms rhos ts).map (fun p =>
          if 0 < p.weight then
            partTouch ⟨x, y, K, pwx, pwy, xmin, ymin, pcx, pcy⟩ p j i
          else 0)).sum) ∧
      ∀ p ∈ buildParts xs ys hs ms rhos ts, p.h ≤ 0 → ∀ j i : ℕ,
        (if 0 < p.weight then
          partTouch ⟨x, y, K, pwx, pwy, xmin, ymin, pcx, pcy⟩ p j i
        else 0) = 0 := by
  refine ⟨finalGrid _ (retainedParts xs ys hs ms rhos ts),
    interpolate2D_eq_ok data x y target K pwx pwy xmin ymin pcx pcy xs ys hs ms rhos ts
      h1 h2 h3 h4 h5 hx hy hh hm hr ht hxc (List.mem_append_left _ hyc), ?_, ?_⟩
  · intro j i
    rw [finalGrid_apply]
    exact sum_filter_weight _ _
  · intro p _ hhp j i
    by_cases hw : 0 < p.weight
    · rw [if_pos hw]
      unfold partTouch
      rw [if_neg]
      intro hcond
      have hi2 := (mem_iVisited _ p i).mp hcond.2
      have hempty := ipix_range_empty_of_h_nonpos ⟨x, y, K, pwx, pwy, xmin, ymin, pcx, pcy⟩
        p h1 hhp
      omega
    · rw [if_neg hw]

/-- Witness for C5: a frame containing one particle with `h = -1`. -/
theorem nonpositive_h_contributes_nothing_witness :
    ∃ img : Grid,
      interpolate2D [("x", [3 / 2]), ("y", [3 / 2]), ("h", [-1]), ("m", [1]),
          ("rho", [1]), ("t", [1])] "x" "y" "t" testKernel 1 1 0 0 4 4 = Except.ok img ∧
      (∀ j i : ℕ, img j i =
        ((buildParts [3 / 2] [3 / 2] [-1] [1] [1] [1]).map (fun p =>
          if 0 < p.weight then
            partTouch ⟨"x", "y", testKernel, 1, 1, 0, 0, 4, 4⟩ p j i
          else 0)).sum) ∧
      ∀ p ∈ buildParts [3 / 2] [3 / 2] [-1] [1] [1] [1], p.h ≤ 0 → ∀ j i : ℕ,
        (if 0 < p.weight then
          partTouch ⟨"x", "y", testKernel, 1, 1, 0, 0, 4, 4⟩ p j i
        else 0) = 0 :=
  nonpositive_h_contributes_nothing
    [("x", [3 / 2]), ("y", [3 / 2]), ("h", [-1]), ("m", [1]), ("rho", [1]), ("t", [1])]
    "x" "y" "t" testKernel 1 1 0 0 4 4
    [3 / 2] [3 / 2] [-1] [1] [1] [1]
    (by norm_num) (by norm_num) (by norm_num) (by norm_num) rfl
    rfl rfl rfl rfl rfl rfl (by simp [partsColumns]) (by simp [partsColumns])

/-- Row-indexed normal form of the cloned frame: row `k` is built from the
`k`-th entry of each fetched column. -/
theorem buildParts_eq_map_range :
    ∀ (n : ℕ) (xs ys hs ms rhos ts : List ℚ),
      xs.length = n → ys.length = n → hs.length = n → ms.length = n →
      rhos.length = n → ts.length = n →
      buildParts xs ys hs ms rhos ts =
        (List.range n).map (fun k =>
          mkPart (xs.getD k 0) (ys.getD k 0) (hs.getD k 0) (ms.getD k 0)
            (rhos.getD k 0) (ts.getD k 0)) := by
  intro n
  induction n with
  | zero =>
      intro xs ys hs ms rhos ts h1 h2 h3 h4 h5 h6
      rw [List.length_eq_zero] at h1 h2 h3 h4 h5 h6
      subst h1; subst h2; subst h3; subst h4; subst h5; subst h6
      rfl
  | succ n ih =>
      intro xs ys hs ms rhos ts h1 h2 h3 h4 h5 h6
      cases xs with
      | nil => simp at h1
      | cons a xs =>
      cases ys with
      | nil => simp at h2
      | cons b ys =>
      cases hs with
      | nil => simp at h3
      | cons cv hs =>
      cases ms with
      | nil => simp at h4
      | cons d ms =>
      cases rhos with
      | nil => simp at h5
      | cons e rhos =>
      cases ts with
      | nil => simp at h6
      | cons f ts =>
      simp only [List.length_cons, add_left_inj] at h1 h2 h3 h4 h5 h6
      rw [List.range_succ_eq_map]
      simp only [List.map_cons, List.map_map]
      rw [buildParts]
      congr 1
      rw [ih xs ys hs ms rhos ts h1 h2 h3 h4 h5 h6]
      apply List.map_congr_left
      intro k _
      simp [Function.comp, List.getD_cons_succ]

/-- Row `k` of the cloned frame, extracted with a default. -/
theorem buildParts_getD (n k : ℕ) (hk : k < n) (xs ys hs ms rhos ts : List ℚ)
    (h1 : xs.length = n) (h2 : ys.length = n) (h3 : hs.length = n)
    (h4 : ms.length = n) (h5 : rhos.length = n) (h6 : ts.length = n) :
    (buildParts xs ys hs ms rhos ts).getD k ⟨0, 0, 0, 0, 0⟩ =
      mkPart (xs.getD k 0) (ys.getD k 0) (hs.getD k 0) (ms.getD k 0)
        (rhos.getD k 0) (ts.getD k 0) := by
  rw [buildParts_eq_map_range n xs ys hs ms rhos ts h1 h2 h3 h4 h5 h6]
  simp [List.getD, List.getElem?_map, List.getElem?_range hk]

/-- Claim C3: every particle's weight is `m / (rho * h^2)` and its term is
`weight * target_value`, and a particle whose weight is not strictly
positive is excluded from accumulation — it contributes nothing to any cell
(its summand is the guarded zero) and causes no error (the call still
succeeds). -/
theorem weight_term_and_exclusion
    (data : DFrame) (x y target : String) (K : BaseKernel)
    (pwx pwy xmin ymin : ℚ) (pcx pcy : ℤ)
    (xs ys hs ms rhos ts : List ℚ) (n : ℕ)
    (h1 : 0 < pwx) (h2 : 0 < pwy) (h3 : 0 < pcx) (h4 : 0 < pcy) (h5 : K.ndims = 2)
    (hx : dfGet data x = some xs) (hy : dfGet data y = some ys)
    (hh : dfGet data "h" = some hs) (hm : dfGet data "m" = some ms)
    (hr : dfGet data "rho" = some rhos) (ht : dfGet data target = some ts)
    (hxc : x ∈ partsColumns) (hyc : y ∈ partsColumns)
    (hl1 : xs.length = n) (hl2 : ys.length = n) (hl3 : hs.length = n)
    (hl4 : ms.length = n) (hl5 : rhos.length = n) (hl6 : ts.length = n) :
    (∀ k : ℕ, k < n →
      ((buildParts xs ys hs ms rhos ts).getD k ⟨0, 0, 0, 0, 0⟩).weight =
        ms.getD k 0 / (rhos.getD k 0 * hs.getD k 0 ^ 2) ∧
      ((buildParts xs ys hs ms rhos ts).getD k ⟨0, 0, 0, 0, 0⟩).term =
        ((buildParts xs ys hs ms rhos ts).getD k ⟨0, 0, 0, 0, 0⟩).weight * ts.getD k 0) ∧
    ∃ img : Grid,
      interpolate2D data x y target K pwx pwy xmin ymin pcx pcy = Except.ok img ∧
      ∀ j i : ℕ, img j i =
        ((buildParts xs ys hs ms rhos ts).map (fun p =>
          if 0 < p.weight then
            partTouch ⟨x, y, K, pwx, pwy, xmin, ymin, pcx, pcy⟩ p j i
          else 0)).sum := by
  constructor
  · intro k hk
    rw [buildParts_getD n k hk xs ys hs ms rhos ts hl1 hl2 hl3 hl4 hl5 hl6]
    exact ⟨rfl, rfl⟩
  · refine ⟨finalGrid _ (retainedParts xs ys hs ms rhos ts),
      interpolate2D_eq_ok data x y target K pwx pwy xmin ymin pcx pcy xs ys hs ms rhos ts
        h1 h2 h3 h4 h5 hx hy hh hm hr ht hxc (List.mem_append_left _ hyc), ?_⟩
    intro j i
    rw [finalGrid_apply]
    exact sum_filter_weight _ _

/-- Witness for C3 at the concrete input. -/
theorem weight_term_and_exclusion_witness :
    (∀ k : ℕ, k < 1 →
      ((buildParts [3 / 2] [3 / 2] [1 / 4] [1] [1] [1]).getD k ⟨0, 0, 0, 0, 0⟩).weight =
        List.getD [1] k 0 / (List.getD [1] k 0 * List.getD [1 / 4] k 0 ^ 2) ∧
      ((buildParts [3 / 2] [3 / 2] [1 / 4] [1] [1] [1]).getD k ⟨0, 0, 0, 0, 0⟩).term =
        ((buildParts [3 / 2] [3 / 2] [1 / 4] [1] [1] [1]).getD k ⟨0, 0, 0, 0, 0⟩).weight *
          List.getD [1] k 0) ∧
    ∃ img : Grid,
      interpolate2D testData "x" "y" "t" testKernel 1 1 0 0 4 4 = Except.ok img ∧
      ∀ j i : ℕ, img j i =
        ((buildParts [3 / 2] [3 / 2] [1 / 4] [1] [1] [1]).map (fun p =>
          if 0 < p.weight then
            partTouch ⟨"x", "y", testKernel, 1, 1, 0, 0, 4, 4⟩ p j i
          else 0)).sum :=
  weight_term_and_exclusion testData "x" "y" "t" testKernel 1 1 0 0 4 4
    [3 / 2] [3 / 2] [1 / 4] [1] [1] [1] 1
    (by norm_num) (by norm_num) (by norm_num) (by norm_num) rfl
    rfl rfl rfl rfl rfl rfl (by simp [partsColumns]) (by simp [partsColumns])
    rfl rfl rfl rfl rfl rfl

theorem rint_intCast (n : ℤ) : rint (n : ℚ) = n := by
  unfold rint
  rw [Int.floor_intCast]
  norm_num

theorem rint_one : rint 1 = 1 := by
  have h := rint_intCast 1
  simpa using h

theorem rint_two : rint 2 = 2 := by
  have h := rint_intCast 2
  simpa using h

/-- Definition following the spec's Grid Geometry contract (§4.2), in the
spec's words: the pair of rounded, clamped index bounds of a particle's
support footprint along one axis. -/
def claimed_pixel_index_range (center h radius_mult origin cell_width : ℚ)
    (pixel_count : ℤ) : ℤ × ℤ :=
  (clipZ (rint ((center - radius_mult * h - origin) / cell_width)) 0 pixel_count,
   clipZ (rint ((center + radius_mult * h - origin) / cell_width)) 0 pixel_count)

/-- Concrete configuration for the counterexamples: unit pixels, origin `0`,
a `4 × 4` grid, labels `x`/`y`. -/
def cfg0 : Config := ⟨"x", "y", testKernel, 1, 1, 0, 0, 4, 4⟩

/-- The single retained particle of `testData`. -/
def p0 : Part := mkPart (3 / 2) (3 / 2) (1 / 4) 1 1 1

theorem ipixmin_p0 : ipixmin cfg0 p0 = 1 := by
  show clipZ (rint ((partsColD p0 "x" - testKernel.radkernel * p0.h - 0) / 1)) 0 4 = 1
  have harg : (partsColD p0 "x" - testKernel.radkernel * p0.h - 0) / 1 = 1 := by
    norm_num [partsColD, partsCol, mkPart, p0, testKernel]
  rw [harg, rint_one]
  decide

theorem ipixmax_p0 : ipixmax cfg0 p0 = 2 := by
  show clipZ (rint ((partsColD p0 "x" + testKernel.radkernel * p0.h - 0) / 1)) 0 4 = 2
  have harg : (partsColD p0 "x" + testKernel.radkernel * p0.h - 0) / 1 = 2 := by
    norm_num [partsColD, partsCol, mkPart, p0, testKernel]
  rw [harg, rint_two]
  decide

theorem iVisited_p0 : iVisited cfg0 p0 = [1] := by
  unfold iVisited
  rw [ipixmin_p0, ipixmax_p0]
  rfl

theorem retained_testData :
    retainedParts [3 / 2] [3 / 2] [1 / 4] [1] [1] [1] = [p0] := by
  have hb : buildParts [3 / 2] [3 / 2] [1 / 4] [1] [1] [1] =
      [mkPart (3 / 2) (3 / 2) (1 / 4) 1 1 1] := by
    simp [buildParts]
  unfold retainedParts
  rw [hb, List.filter_cons]
  norm_num [mkPart, p0, List.filter_nil]

/-- Claim C2 (amended): on a validated call, the per-particle index bounds
along each axis are exactly the spec's Grid Geometry values
`round((center ± radkernel*h - origin)/cell_width)` clamped to
`[0, pixel_count]` (rounding half to even, as `np.rint`), but the cells
visited along the axis are the half-open range `[i_min, i_max)`, not the
inclusive one.  The centre is obtained by looking the axis label up in the
cloned frame at the point of use: the x label (line 62) must be one of the
cloned columns `x`, `y`, `h`, `weight`, `term`, while the y label (line 64,
after line 62 has created `ipixmin`) may additionally be `ipixmin` — then
the call succeeds with the just-computed clipped lower x-bound as the
y-centre; any other axis label, even one naming a column of the input data,
raises `KeyError`. -/
theorem pixel_index_bounds_halfopen :
    (∀ (c : Config) (p : Part),
      ipixmin c p = (claimed_pixel_index_range (partsColD p c.x) p.h c.kernel.radkernel
          c.xmin c.pixwidthx c.pixcountx).1 ∧
      ipixmax c p = (claimed_pixel_index_range (partsColD p c.x) p.h c.kernel.radkernel
          c.xmin c.pixwidthx c.pixcountx).2 ∧
      jpixmin c p = (claimed_pixel_index_range (yCenter c p) p.h c.kernel.radkernel
          c.ymin c.pixwidthy c.pixcounty).1 ∧
      jpixmax c p = (claimed_pixel_index_range (yCenter c p) p.h c.kernel.radkernel
          c.ymin c.pixwidthy c.pixcounty).2 ∧
      (c.y ≠ "ipixmin" → yCenter c p = partsColD p c.y) ∧
      (c.y = "ipixmin" → yCenter c p = ((ipixmin c p : ℤ) : ℚ)) ∧
      (∀ i : ℕ, i ∈ iVisited c p ↔ (ipixmin c p ≤ (i : ℤ) ∧ (i : ℤ) < ipixmax c p)) ∧
      (∀ j : ℕ, j ∈ jVisited c p ↔ (jpixmin c p ≤ (j : ℤ) ∧ (j : ℤ) < jpixmax c p))) ∧
    (∀ (data : DFrame) (x y target : String) (K : BaseKernel)
      (pwx pwy xmin ymin : ℚ) (pcx pcy : ℤ) (xs ys hs ms rhos ts : List ℚ),
      0 < pwx → 0 < pwy → 0 < pcx → 0 < pcy → K.ndims = 2 →
      dfGet data x = some xs → dfGet data y = some ys →
      dfGet data "h" = some hs → dfGet data "m" = some ms →
      dfGet data "rho" = some rhos → dfGet data target = some ts →
      x ∉ partsColumns →
      interpolate2D data x y target K pwx pwy xmin ymin pcx pcy =
        Except.error (PyErr.keyError x)) ∧
    (∀ (data : DFrame) (x y target : String) (K : BaseKernel)
      (pwx pwy xmin ymin : ℚ) (pcx pcy : ℤ) (xs ys hs ms rhos ts : List ℚ),
      0 < pwx → 0 < pwy → 0 < pcx → 0 < pcy → K.ndims = 2 →
      dfGet data x = some xs → dfGet data y = some ys →
      dfGet data "h" = some hs → dfGet data "m" = some ms →
      dfGet data "rho" = some rhos → dfGet data target = some ts →
      x ∈ partsColumns → y ∉ partsColumnsLine64 →
      interpolate2D data x y target K pwx pwy xmin ymin pcx pcy =
        Except.error (PyErr.keyError y)) ∧
    (∀ (data : DFrame) (x target : String) (K : BaseKernel)
      (pwx pwy xmin ymin : ℚ) (pcx pcy : ℤ) (xs ys hs ms rhos ts : List ℚ),
      0 < pwx → 0 < pwy → 0 < pcx → 0 < pcy → K.ndims = 2 →
      dfGet data x = some xs → dfGet data "ipixmin" = some ys →
      dfGet data "h" = some hs → dfGet data "m" = some ms →
      dfGet data "rho" = some rhos → dfGet data target = some ts →
      x ∈ partsColumns →
      ∃ img, interpolate2D data x "ipixmin" target K pwx pwy xmin ymin pcx pcy =
        Except.ok img) := by
  refine ⟨?_, ?_, ?_, ?_⟩
  · exact fun c p => ⟨rfl, rfl, rfl, rfl, fun h => if_neg h, fun h => if_pos h,
      mem_iVisited c p, mem_jVisited c p⟩
  · intro data x y target K pwx pwy xmin ymin pcx pcy xs ys hs ms rhos ts
      hv1 hv2 hv3 hv4 hv5 hgx hgy hgh hgm hgr hgt hxbad
    unfold interpolate2D
    simp [not_le.mpr hv1, not_le.mpr hv2, not_le.mpr hv3, not_le.mpr hv4, hv5,
      getCol, hgx, hgy, hgh, hgm, hgr, hgt, hxbad, Bind.bind, Except.bind]
  · intro data x y target K pwx pwy xmin ymin pcx pcy xs ys hs ms rhos ts
      hv1 hv2 hv3 hv4 hv5 hgx hgy hgh hgm hgr hgt hxc hybad
    unfold interpolate2D
    simp [not_le.mpr hv1, not_le.mpr hv2, not_le.mpr hv3, not_le.mpr hv4, hv5,
      getCol, hgx, hgy, hgh, hgm, hgr, hgt, hxc, hybad, Bind.bind, Except.bind]
  · intro data x target K pwx pwy xmin ymin pcx pcy xs ys hs ms rhos ts
      hv1 hv2 hv3 hv4 hv5 hgx hgy hgh hgm hgr hgt hxc
    exact ⟨_, interpolate2D_eq_ok data x "ipixmin" target K pwx pwy xmin ymin pcx pcy
      xs ys hs ms rhos ts hv1 hv2 hv3 hv4 hv5 hgx hgy hgh hgm hgr hgt hxc
      (by simp [partsColumnsLine64])⟩

/-- Witness for the amended C2: the half-open characterisation at the
concrete particle; a `KeyError` on an x label (`px`) naming an input column
but not a cloned one; a `KeyError` on a y label (`nope`) outside the line-64
column set; and a successful call with the y label `ipixmin`. -/
theorem pixel_index_bounds_halfopen_witness :
    (1 ∈ iVisited cfg0 p0 ↔ (ipixmin cfg0 p0 ≤ (1 : ℤ) ∧ (1 : ℤ) < ipixmax cfg0 p0)) ∧
    interpolate2D [("px", [1]), ("py", [1]), ("h", [1]), ("m", [1]), ("rho", [1]), ("t", [1])]
        "px" "py" "t" testKernel 1 1 0 0 4 4 =
      Except.error (PyErr.keyError "px") ∧
    interpolate2D [("x", [1]), ("nope", [1]), ("h", [1]), ("m", [1]), ("rho", [1]), ("t", [1])]
        "x" "nope" "t" testKernel 1 1 0 0 4 4 =
      Except.error (PyErr.keyError "nope") ∧
    ∃ img, interpolate2D
        [("x", [1]), ("ipixmin", [1]), ("h", [1]), ("m", [1]), ("rho", [1]), ("t", [1])]
        "x" "ipixmin" "t" testKernel 1 1 0 0 4 4 = Except.ok img :=
  ⟨(pixel_index_bounds_halfopen.1 cfg0 p0).2.2.2.2.2.2.1 1,
   pixel_index_bounds_halfopen.2.1
     [("px", [1]), ("py", [1]), ("h", [1]), ("m", [1]), ("rho", [1]), ("t", [1])]
     "px" "py" "t" testKernel 1 1 0 0 4 4 [1] [1] [1] [1] [1] [1]
     (by norm_num) (by norm_num) (by norm_num) (by norm_num) rfl
     rfl rfl rfl rfl rfl rfl (by simp [partsColumns]),
   pixel_index_bounds_halfopen.2.2.1
     [("x", [1]), ("nope", [1]), ("h", [1]), ("m", [1]), ("rho", [1]), ("t", [1])]
     "x" "nope" "t" testKernel 1 1 0 0 4 4 [1] [1] [1] [1] [1] [1]
     (by norm_num) (by norm_num) (by norm_num) (by norm_num) rfl
     rfl rfl rfl rfl rfl rfl (by simp [partsColumns])
     (by simp [partsColumnsLine64, partsColumns]),
   pixel_index_bounds_halfopen.2.2.2
     [("x", [1]), ("ipixmin", [1]), ("h", [1]), ("m", [1]), ("rho", [1]), ("t", [1])]
     "x" "t" testKernel 1 1 0 0 4 4 [1] [1] [1] [1] [1] [1]
     (by norm_num) (by norm_num) (by norm_num) (by norm_num) rfl
     rfl rfl rfl rfl rfl rfl (by simp [partsColumns])⟩

/-- Counterexample to claim C2 as stated: on a validated call with labels
`x`, `y`, the single retained particle has clamped bounds `i_min = 1`,
`i_max = 2`, yet the loop visits only cell `1`; the inclusive range
`[i_min, i_max]` would also contain `2`, so the visited cells are not the
inclusive range. -/
theorem pixel_index_inclusive_counterexample :
    isOk (interpolate2D testData "x" "y" "t" testKernel 1 1 0 0 4 4) = true ∧
    retainedParts [3 / 2] [3 / 2] [1 / 4] [1] [1] [1] = [p0] ∧
    ipixmin cfg0 p0 = 1 ∧ ipixmax cfg0 p0 = 2 ∧ iVisited cfg0 p0 = [1] ∧
    ¬ (∀ i : ℕ, i ∈ iVisited cfg0 p0 ↔
        (ipixmin cfg0 p0 ≤ (i : ℤ) ∧ (i : ℤ) ≤ ipixmax cfg0 p0)) := by
  refine ⟨?_, retained_testData, ipixmin_p0, ipixmax_p0, iVisited_p0, ?_⟩
  · rw [interpolate2D_eq_ok testData "x" "y" "t" testKernel 1 1 0 0 4 4
      [3 / 2] [3 / 2] [1 / 4] [1] [1] [1]
      (by norm_num) (by norm_num) (by norm_num) (by norm_num) rfl
      rfl rfl rfl rfl rfl rfl (by simp [partsColumns])
      (by simp [partsColumnsLine64, partsColumns])]
    rfl
  · intro hall
    have h2 := (hall 2).mpr (by rw [ipixmin_p0, ipixmax_p0]; omega)
    rw [iVisited_p0] at h2
    simp at h2

/-- Restriction of a dataframe to its `k`-th row (every column cut to the
one entry at position `k`): the frame holding one particle alone. -/
def dfRow (df : DFrame) (k : ℕ) : DFrame :=
  df.map (fun p => (p.1, (p.2.drop k).take 1))

theorem getGrid_ok (g : Grid) : getGrid (Except.ok g) = g := rfl

/-- Column lookup commutes with any per-column transformation that keeps
labels. -/
theorem dfGet_map_snd (df : DFrame) (g : List ℚ → List ℚ) (c : String) :
    dfGet (df.map (fun p => (p.1, g p.2))) c = (dfGet df c).map g := by
  unfold dfGet
  rw [List.find?_map]
  have hpred : ((fun p : String × List ℚ => decide (p.1 = c)) ∘
      (fun p : String × List ℚ => (p.1, g p.2))) =
      (fun p : String × List ℚ => decide (p.1 = c)) := by
    funext p
    rfl
  rw [hpred, Option.map_map, Option.map_map]
  rfl

theorem dfGet_dfRow (df : DFrame) (k : ℕ) (c : String) :
    dfGet (dfRow df k) c = (dfGet df c).map (fun l => (l.drop k).take 1) :=
  dfGet_map_snd df (fun l => (l.drop k).take 1) c

theorem drop_take_one (l : List ℚ) (k : ℕ) (hk : k < l.length) :
    (l.drop k).take 1 = [l.getD k 0] := by
  rw [List.drop_eq_getElem_cons hk, List.take_succ_cons, List.take_zero,
    List.getD_eq_getElem?_getD, List.getElem?_eq_getElem hk]
  rfl

/-- The image of a one-particle frame, cell by cell. -/
theorem finalGrid_singleton (c : Config) (a b hv mv rv tv : ℚ) (j i : ℕ) :
    finalGrid c (retainedParts [a] [b] [hv] [mv] [rv] [tv]) j i =
      (if 0 < (mkPart a b hv mv rv tv).weight then
        partTouch c (mkPart a b hv mv rv tv) j i else 0) := by
  have hb : buildParts [a] [b] [hv] [mv] [rv] [tv] = [mkPart a b hv mv rv tv] := by
    simp [buildParts]
  unfold retainedParts
  rw [hb]
  by_cases hw : 0 < (mkPart a b hv mv rv tv).weight
  · rw [if_pos hw]
    have hf : List.filter (fun p => decide (0 < p.weight)) [mkPart a b hv mv rv tv] =
        [mkPart a b hv mv rv tv] := by
      simp [List.filter_cons, hw]
    rw [hf, finalGrid_apply]
    simp
  · rw [if_neg hw]
    have hf : List.filter (fun p => decide (0 < p.weight)) [mkPart a b hv mv rv tv] =
        ([] : List Part) := by
      simp [List.filter_cons, hw]
    rw [hf, finalGrid_apply]
    simp

/-- Claim C7: the output grid is additive over particles — on a validated
call, the image of the whole frame equals, cell by cell, the sum over `k` of
the images obtained by interpolating row `k` alone. -/
theorem interpolate2D_additive_over_particles
    (data : DFrame) (x y target : String) (K : BaseKernel)
    (pwx pwy xmin ymin : ℚ) (pcx pcy : ℤ)
    (xs ys hs ms rhos ts : List ℚ) (n : ℕ)
    (h1 : 0 < pwx) (h2 : 0 < pwy) (h3 : 0 < pcx) (h4 : 0 < pcy) (h5 : K.ndims = 2)
    (hx : dfGet data x = some xs) (hy : dfGet data y = some ys)
    (hh : dfGet data "h" = some hs) (hm : dfGet data "m" = some ms)
    (hr : dfGet data "rho" = some rhos) (ht : dfGet data target = some ts)
    (hxc : x ∈ partsColumns) (hyc : y ∈ partsColumns)
    (hl1 : xs.length = n) (hl2 : ys.length = n) (hl3 : hs.length = n)
    (hl4 : ms.length = n) (hl5 : rhos.length = n) (hl6 : ts.length = n) :
    ∀ j i : ℕ,
      getGrid (interpolate2D data x y target K pwx pwy xmin ymin pcx pcy) j i =
        ((List.range n).map (fun k =>
          getGrid (interpolate2D (dfRow data k) x y target K pwx pwy xmin ymin pcx pcy)
            j i)).sum := by
  intro j i
  rw [interpolate2D_eq_ok data x y target K pwx pwy xmin ymin pcx pcy xs ys hs ms rhos ts
    h1 h2 h3 h4 h5 hx hy hh hm hr ht hxc (List.mem_append_left _ hyc), getGrid_ok,
    finalGrid_apply]
  unfold retainedParts
  rw [sum_filter_weight, buildParts_eq_map_range n xs ys hs ms rhos ts hl1 hl2 hl3 hl4 hl5 hl6,
    List.map_map]
  refine congrArg List.sum (List.map_congr_left ?_)
  intro k hkmem
  have hk : k < n := List.mem_range.mp hkmem
  have hrx : dfGet (dfRow data k) x = some [xs.getD k 0] := by
    rw [dfGet_dfRow, hx, Option.map_some']
    rw [drop_take_one xs k (by omega)]

  have hry : dfGet (dfRow data k) y = some [ys.getD k 0] := by
    rw [dfGet_dfRow, hy, Option.map_some']
    rw [drop_take_one ys k (by omega)]
  have hrh : dfGet (dfRow data k) "h" = some [hs.getD k 0] := by
    rw [dfGet_dfRow, hh, Option.map_some']
    rw [drop_take_one hs k (by omega)]
  have hrm : dfGet (dfRow data k) "m" = some [ms.getD k 0] := by
    rw [dfGet_dfRow, hm, Option.map_some']
    rw [drop_take_one ms k (by omega)]
  have hrr : dfGet (dfRow data k) "rho" = some [rhos.getD k 0] := by
    rw [dfGet_dfRow, hr, Option.map_some']
    rw [drop_take_one rhos k (by omega)]
  have hrt : dfGet (dfRow data k) target = some [ts.getD k 0] := by
    rw [dfGet_dfRow, ht, Option.map_some']
    rw [drop_take_one ts k (by omega)]
  rw [interpolate2D_eq_ok (dfRow data k) x y target K pwx pwy xmin ymin pcx pcy
    [xs.getD k 0] [ys.getD k 0] [hs.getD k 0] [ms.getD k 0] [rhos.getD k 0] [ts.getD k 0]
    h1 h2 h3 h4 h5 hrx hry hrh hrm hrr hrt hxc (List.mem_append_left _ hyc), getGrid_ok,
    finalGrid_singleton]
  rfl

/-- Witness for C7: a frame of two particles with disjoint supports, at
cell `(1, 1)`. -/
theorem interpolate2D_additive_over_particles_witness :
    getGrid (interpolate2D
      [("x", [1 / 2, 3]), ("y", [1 / 2, 3]), ("h", [1 / 4, 1 / 4]), ("m", [1, 1]),
        ("rho", [1, 1]), ("t", [1, 1])] "x" "y" "t" testKernel 1 1 0 0 4 4) 1 1 =
      ((List.range 2).map (fun k =>
        getGrid (interpolate2D
          (dfRow [("x", [1 / 2, 3]), ("y", [1 / 2, 3]), ("h", [1 / 4, 1 / 4]),
            ("m", [1, 1]), ("rho", [1, 1]), ("t", [1, 1])] k)
          "x" "y" "t" testKernel 1 1 0 0 4 4) 1 1)).sum :=
  interpolate2D_additive_over_particles
    [("x", [1 / 2, 3]), ("y", [1 / 2, 3]), ("h", [1 / 4, 1 / 4]), ("m", [1, 1]),
      ("rho", [1, 1]), ("t", [1, 1])] "x" "y" "t" testKernel 1 1 0 0 4 4
    [1 / 2, 3] [1 / 2, 3] [1 / 4, 1 / 4] [1, 1] [1, 1] [1, 1] 2
    (by norm_num) (by norm_num) (by norm_num) (by norm_num) rfl
    rfl rfl rfl rfl rfl rfl (by simp [partsColumns]) (by simp [partsColumns])
    rfl rfl rfl rfl rfl rfl 1 1

/-- Translation of one coordinate column by a constant: every particle's
entry in column `cs` is shifted by `t`. -/
def dfShift (df : DFrame) (cs : String) (t : ℚ) : DFrame :=
  df.map (fun p => if p.1 = cs then (p.1, p.2.map (fun v => v + t)) else p)

theorem dfGet_dfShift (df : DFrame) (cs : String) (t : ℚ) (c : String) :
    dfGet (dfShift df cs t) c =
      if c = cs then (dfGet df c).map (List.map (fun v => v + t)) else dfGet df c := by
  unfold dfShift dfGet
  rw [List.find?_map]
  have hpred : ((fun q : String × List ℚ => decide (q.1 = c)) ∘
      (fun p : String × List ℚ => if p.1 = cs then (p.1, p.2.map (fun v => v + t)) else p)) =
      (fun p : String × List ℚ => decide (p.1 = c)) := by
    funext p
    by_cases hp : p.1 = cs <;> simp [hp]
  rw [hpred]
  cases hf : df.find? (fun p => decide (p.1 = c)) with
  | none => by_cases hc : c = cs <;> simp [hc]
  | some q =>
      have hq : q.1 = c := by simpa using List.find?_some hf
      by_cases hc : c = cs
      · subst hc
        simp [hq]
      · simp [hc, hq]

theorem getD_map_rat (f : ℚ → ℚ) (l : List ℚ) (k : ℕ) (hk : k < l.length) :
    (l.map f).getD k 0 = f (l.getD k 0) := by
  rw [List.getD_eq_getElem?_getD, List.getD_eq_getElem?_getD, List.getElem?_map,
    List.getElem?_eq_getElem hk]
  rfl

theorem partsColD_x (p : Part) : partsColD p "x" = p.x := rfl

theorem partsColD_y (p : Part) : partsColD p "y" = p.y := by
  simp [partsColD, partsCol]

/-- With the ordinary y-axis label `y`, the line-64 centre is the particle's
y position. -/
theorem yCenter_of_label_y (c : Config) (p : Part) (h : c.y = "y") :
    yCenter c p = p.y := by
  unfold yCenter
  rw [h, if_neg (by decide)]
  exact partsColD_y p

/-- The per-particle contribution is invariant under translating the
particle position and the grid origin by the same vector (axis labels being
the frame's `x` and `y` columns). -/
theorem partTouch_translate (K : BaseKernel) (pwx pwy xmin ymin : ℚ) (pcx pcy : ℤ)
    (tx ty : ℚ) (a b hv mv rv tv : ℚ) (j i : ℕ) :
    partTouch ⟨"x", "y", K, pwx, pwy, xmin + tx, ymin + ty, pcx, pcy⟩
        (mkPart (a + tx) (b + ty) hv mv rv tv) j i =
      partTouch ⟨"x", "y", K, pwx, pwy, xmin, ymin, pcx, pcy⟩
        (mkPart a b hv mv rv tv) j i := by
  have e1 : ipixmin ⟨"x", "y", K, pwx, pwy, xmin + tx, ymin + ty, pcx, pcy⟩
      (mkPart (a + tx) (b + ty) hv mv rv tv) =
      ipixmin ⟨"x", "y", K, pwx, pwy, xmin, ymin, pcx, pcy⟩ (mkPart a b hv mv rv tv) := by
    unfold ipixmin
    have harg : (partsColD (mkPart (a + tx) (b + ty) hv mv rv tv) "x" -
        K.radkernel * (mkPart (a + tx) (b + ty) hv mv rv tv).h - (xmin + tx)) / pwx =
        (partsColD (mkPart a b hv mv rv tv) "x" -
        K.radkernel * (mkPart a b hv mv rv tv).h - xmin) / pwx := by
      rw [partsColD_x, partsColD_x]
      simp only [mkPart]
      ring
    rw [harg]
  have e2 : ipixmax ⟨"x", "y", K, pwx, pwy, xmin + tx, ymin + ty, pcx, pcy⟩
      (mkPart (a + tx) (b + ty) hv mv rv tv) =
      ipixmax ⟨"x", "y", K, pwx, pwy, xmin, ymin, pcx, pcy⟩ (mkPart a b hv mv rv tv) := by
    unfold ipixmax
    have harg : (partsColD (mkPart (a + tx) (b + ty) hv mv rv tv) "x" +
        K.radkernel * (mkPart (a + tx) (b + ty) hv mv rv tv).h - (xmin + tx)) / pwx =
        (partsColD (mkPart a b hv mv rv tv) "x" +
        K.radkernel * (mkPart a b hv mv rv tv).h - xmin) / pwx := by
      rw [partsColD_x, partsColD_x]
      simp only [mkPart]
      ring
    rw [harg]
  have e3 : jpixmin ⟨"x", "y", K, pwx, pwy, xmin + tx, ymin + ty, pcx, pcy⟩
      (mkPart (a + tx) (b + ty) hv mv rv tv) =
      jpixmin ⟨"x", "y", K, pwx, pwy, xmin, ymin, pcx, pcy⟩ (mkPart a b hv mv rv tv) := by
    unfold jpixmin
    rw [yCenter_of_label_y ⟨"x", "y", K, pwx, pwy, xmin + tx, ymin + ty, pcx, pcy⟩
        (mkPart (a + tx) (b + ty) hv mv rv tv) rfl,
      yCenter_of_label_y ⟨"x", "y", K, pwx, pwy, xmin, ymin, pcx, pcy⟩
        (mkPart a b hv mv rv tv) rfl]
    have harg : ((mkPart (a + tx) (b + ty) hv mv rv tv).y -
        K.radkernel * (mkPart (a + tx) (b + ty) hv mv rv tv).h - (ymin + ty)) / pwy =
        ((mkPart a b hv mv rv tv).y -
        K.radkernel * (mkPart a b hv mv rv tv).h - ymin) / pwy := by
      simp only [mkPart]
      ring
    rw [harg]
  have e4 : jpixmax ⟨"x", "y", K, pwx, pwy, xmin + tx, ymin + ty, pcx, pcy⟩
      (mkPart (a + tx) (b + ty) hv mv rv tv) =
      jpixmax ⟨"x", "y", K, pwx, pwy, xmin, ymin, pcx, pcy⟩ (mkPart a b hv mv rv tv) := by
    unfold jpixmax
    rw [yCenter_of_label_y ⟨"x", "y", K, pwx, pwy, xmin + tx, ymin + ty, pcx, pcy⟩
        (mkPart (a + tx) (b + ty) hv mv rv tv) rfl,
      yCenter_of_label_y ⟨"x", "y", K, pwx, pwy, xmin, ymin, pcx, pcy⟩
        (mkPart a b hv mv rv tv) rfl]
    have harg : ((mkPart (a + tx) (b + ty) hv mv rv tv).y +
        K.radkernel * (mkPart (a + tx) (b + ty) hv mv rv tv).h - (ymin + ty)) / pwy =
        ((mkPart a b hv mv rv tv).y +
        K.radkernel * (mkPart a b hv mv rv tv).h - ymin) / pwy := by
      simp only [mkPart]
      ring
    rw [harg]
  have eiv : iVisited ⟨"x", "y", K, pwx, pwy, xmin + tx, ymin + ty, pcx, pcy⟩
      (mkPart (a + tx) (b + ty) hv mv rv tv) =
      iVisited ⟨"x", "y", K, pwx, pwy, xmin, ymin, pcx, pcy⟩ (mkPart a b hv mv rv tv) := by
    unfold iVisited
    rw [e1, e2]
  have ejv : jVisited ⟨"x", "y", K, pwx, pwy, xmin + tx, ymin + ty, pcx, pcy⟩
      (mkPart (a + tx) (b + ty) hv mv rv tv) =
      jVisited ⟨"x", "y", K, pwx, pwy, xmin, ymin, pcx, pcy⟩ (mkPart a b hv mv rv tv) := by
    unfold jVisited
    rw [e3, e4]
  have edx : dx2i ⟨"x", "y", K, pwx, pwy, xmin + tx, ymin + ty, pcx, pcy⟩
      (mkPart (a + tx) (b + ty) hv mv rv tv) i =
      dx2i ⟨"x", "y", K, pwx, pwy, xmin, ymin, pcx, pcy⟩ (mkPart a b hv mv rv tv) i := by
    unfold dx2i
    rw [e1, e2]
    split_ifs with hg
    · simp only [mkPart]
      ring_nf
    · rfl
  have edy : dy2 ⟨"x", "y", K, pwx, pwy, xmin + tx, ymin + ty, pcx, pcy⟩
      (mkPart (a + tx) (b + ty) hv mv rv tv) j =
      dy2 ⟨"x", "y", K, pwx, pwy, xmin, ymin, pcx, pcy⟩ (mkPart a b hv mv rv tv) j := by
    unfold dy2
    simp only [mkPart]
    ring_nf
  unfold partTouch
  rw [eiv, ejv, edx, edy]
  simp [mkPart]

/-- Claim C8 (amended): when the axis labels are the frame's `x` and `y`
columns and the target column is neither of them, translating the `x` and
`y` columns by `(tx, ty)` while translating the grid origin by the same
vector leaves the output grid unchanged, cell by cell. -/
theorem interpolate2D_translation_invariance
    (data : DFrame) (target : String) (K : BaseKernel)
    (pwx pwy xmin ymin : ℚ) (pcx pcy : ℤ) (tx ty : ℚ)
    (xs ys hs ms rhos ts : List ℚ) (n : ℕ)
    (h1 : 0 < pwx) (h2 : 0 < pwy) (h3 : 0 < pcx) (h4 : 0 < pcy) (h5 : K.ndims = 2)
    (hx : dfGet data "x" = some xs) (hy : dfGet data "y" = some ys)
    (hh : dfGet data "h" = some hs) (hm : dfGet data "m" = some ms)
    (hr : dfGet data "rho" = some rhos) (ht : dfGet data target = some ts)
    (htx : target ≠ "x") (hty : target ≠ "y")
    (hl1 : xs.length = n) (hl2 : ys.length = n) (hl3 : hs.length = n)
    (hl4 : ms.length = n) (hl5 : rhos.length = n) (hl6 : ts.length = n) :
    ∀ j i : ℕ,
      getGrid (interpolate2D (dfShift (dfShift data "x" tx) "y" ty) "x" "y" target K
        pwx pwy (xmin + tx) (ymin + ty) pcx pcy) j i =
      getGrid (interpolate2D data "x" "y" target K pwx pwy xmin ymin pcx pcy) j i := by
  intro j i
  have hx2 : dfGet (dfShift (dfShift data "x" tx) "y" ty) "x" =
      some (xs.map (fun v => v + tx)) := by
    rw [dfGet_dfShift, if_neg (by decide), dfGet_dfShift, if_pos rfl, hx]
    rfl
  have hy2 : dfGet (dfShift (dfShift data "x" tx) "y" ty) "y" =
      some (ys.map (fun v => v + ty)) := by
    rw [dfGet_dfShift, if_pos rfl, dfGet_dfShift, if_neg (by decide), hy]
    rfl
  have hh2 : dfGet (dfShift (dfShift data "x" tx) "y" ty) "h" = some hs := by
    rw [dfGet_dfShift, if_neg (by decide), dfGet_dfShift, if_neg (by decide), hh]
  have hm2 : dfGet (dfShift (dfShift data "x" tx) "y" ty) "m" = some ms := by
    rw [dfGet_dfShift, if_neg (by decide), dfGet_dfShift, if_neg (by decide), hm]
  have hr2 : dfGet (dfShift (dfShift data "x" tx) "y" ty) "rho" = some rhos := by
    rw [dfGet_dfShift, if_neg (by decide), dfGet_dfShift, if_neg (by decide), hr]
  have ht2 : dfGet (dfShift (dfShift data "x" tx) "y" ty) target = some ts := by
    rw [dfGet_dfShift, if_neg hty, dfGet_dfShift, if_neg htx, ht]
  rw [interpolate2D_eq_ok (dfShift (dfShift data "x" tx) "y" ty) "x" "y" target K
      pwx pwy (xmin + tx) (ymin + ty) pcx pcy
      (xs.map (fun v => v + tx)) (ys.map (fun v => v + ty)) hs ms rhos ts
      h1 h2 h3 h4 h5 hx2 hy2 hh2 hm2 hr2 ht2
      (by simp [partsColumns]) (by simp [partsColumnsLine64, partsColumns]),
    interpolate2D_eq_ok data "x" "y" target K pwx pwy xmin ymin pcx pcy
      xs ys hs ms rhos ts h1 h2 h3 h4 h5 hx hy hh hm hr ht
      (by simp [partsColumns]) (by simp [partsColumnsLine64, partsColumns]),
    getGrid_ok, getGrid_ok, finalGrid_apply, finalGrid_apply]
  unfold retainedParts
  rw [sum_filter_weight, sum_filter_weight,
    buildParts_eq_map_range n (xs.map (fun v => v + tx)) (ys.map (fun v => v + ty))
      hs ms rhos ts (by simpa using hl1) (by simpa using hl2) hl3 hl4 hl5 hl6,
    buildParts_eq_map_range n xs ys hs ms rhos ts hl1 hl2 hl3 hl4 hl5 hl6,
    List.map_map, List.map_map]
  refine congrArg List.sum (List.map_congr_left ?_)
  intro k hkmem
  have hk : k < n := List.mem_range.mp hkmem
  simp only [Function.comp]
  rw [getD_map_rat _ xs k (by omega), getD_map_rat _ ys k (by omega)]
  by_cases hw : 0 < (mkPart (xs.getD k 0) (ys.getD k 0) (hs.getD k 0) (ms.getD k 0)
      (rhos.getD k 0) (ts.getD k 0)).weight
  · rw [if_pos hw, if_pos (show (0 : ℚ) <
      (mkPart (xs.getD k 0 + tx) (ys.getD k 0 + ty) (hs.getD k 0) (ms.getD k 0)
        (rhos.getD k 0) (ts.getD k 0)).weight from hw)]
    exact partTouch_translate K pwx pwy xmin ymin pcx pcy tx ty
      (xs.getD k 0) (ys.getD k 0) (hs.getD k 0) (ms.getD k 0)
      (rhos.getD k 0) (ts.getD k 0) j i
  · rw [if_neg hw, if_neg (show ¬ (0 : ℚ) <
      (mkPart (xs.getD k 0 + tx) (ys.getD k 0 + ty) (hs.getD k 0) (ms.getD k 0)
        (rhos.getD k 0) (ts.getD k 0)).weight from hw)]

/-- Witness for the amended C8 at the concrete input, with translation
vector `(1, 1)`, at cell `(1, 1)`. -/
theorem interpolate2D_translation_invariance_witness :
    getGrid (interpolate2D (dfShift (dfShift testData "x" 1) "y" 1) "x" "y" "t" testKernel
      1 1 (0 + 1) (0 + 1) 4 4) 1 1 =
      getGrid (interpolate2D testData "x" "y" "t" testKernel 1 1 0 0 4 4) 1 1 :=
  interpolate2D_translation_invariance testData "t" testKernel 1 1 0 0 4 4 1 1
    [3 / 2] [3 / 2] [1 / 4] [1] [1] [1] 1
    (by norm_num) (by norm_num) (by norm_num) (by norm_num) rfl
    rfl rfl rfl rfl rfl rfl (by decide) (by decide)
    rfl rfl rfl rfl rfl rfl 1 1

theorem clip_rint_eval (q : ℚ) (v pc : ℤ) (hq : q = (v : ℚ)) (h0 : 0 ≤ v)
    (hpc : v ≤ pc) : clipZ (rint q) 0 pc = v := by
  rw [hq, rint_intCast]
  unfold clipZ
  omega

/-- Frame for the C8 counterexample: the target column is the `x` column
itself. -/
def dataC8 : DFrame :=
  [("x", [3 / 2]), ("y", [3 / 2]), ("h", [1 / 4]), ("m", [1]), ("rho", [1])]

/-- The retained particle of `dataC8` when the target label is `x`. -/
def pT : Part := mkPart (3 / 2) (3 / 2) (1 / 4) 1 1 (3 / 2)

/-- The configuration after translating by `(1, 0)`. -/
def cfgS : Config := ⟨"x", "y", testKernel, 1, 1, 0 + 1, 0 + 0, 4, 4⟩

/-- The retained particle of the translated frame (its target value — the
shifted `x` column — moves with the translation). -/
def pS : Part := mkPart (3 / 2 + 1) (3 / 2 + 0) (1 / 4) 1 1 (3 / 2 + 1)

theorem ipixmin_pT : ipixmin cfg0 pT = 1 := by
  show clipZ (rint ((partsColD pT "x" - testKernel.radkernel * pT.h - 0) / 1)) 0 4 = 1
  exact clip_rint_eval _ 1 4
    (by rw [partsColD_x]; norm_num [pT, mkPart, testKernel]) (by norm_num) (by norm_num)

theorem ipixmax_pT : ipixmax cfg0 pT = 2 := by
  show clipZ (rint ((partsColD pT "x" + testKernel.radkernel * pT.h - 0) / 1)) 0 4 = 2
  exact clip_rint_eval _ 2 4
    (by rw [partsColD_x]; norm_num [pT, mkPart, testKernel]) (by norm_num) (by norm_num)

theorem jpixmin_pT : jpixmin cfg0 pT = 1 := by
  unfold jpixmin
  rw [yCenter_of_label_y cfg0 pT rfl]
  show clipZ (rint ((pT.y - testKernel.radkernel * pT.h - 0) / 1)) 0 4 = 1
  exact clip_rint_eval _ 1 4
    (by norm_num [pT, mkPart, testKernel]) (by norm_num) (by norm_num)

theorem jpixmax_pT : jpixmax cfg0 pT = 2 := by
  unfold jpixmax
  rw [yCenter_of_label_y cfg0 pT rfl]
  show clipZ (rint ((pT.y + testKernel.radkernel * pT.h - 0) / 1)) 0 4 = 2
  exact clip_rint_eval _ 2 4
    (by norm_num [pT, mkPart, testKernel]) (by norm_num) (by norm_num)

theorem ipixmin_pS : ipixmin cfgS pS = 1 := by
  show clipZ (rint ((partsColD pS "x" - testKernel.radkernel * pS.h - (0 + 1)) / 1)) 0 4 = 1
  exact clip_rint_eval _ 1 4
    (by rw [partsColD_x]; norm_num [pS, mkPart, testKernel]) (by norm_num) (by norm_num)

theorem ipixmax_pS : ipixmax cfgS pS = 2 := by
  show clipZ (rint ((partsColD pS "x" + testKernel.radkernel * pS.h - (0 + 1)) / 1)) 0 4 = 2
  exact clip_rint_eval _ 2 4
    (by rw [partsColD_x]; norm_num [pS, mkPart, testKernel]) (by norm_num) (by norm_num)

theorem jpixmin_pS : jpixmin cfgS pS = 1 := by
  unfold jpixmin
  rw [yCenter_of_label_y cfgS pS rfl]
  show clipZ (rint ((pS.y - testKernel.radkernel * pS.h - (0 + 0)) / 1)) 0 4 = 1
  exact clip_rint_eval _ 1 4
    (by norm_num [pS, mkPart, testKernel]) (by norm_num) (by norm_num)

theorem jpixmax_pS : jpixmax cfgS pS = 2 := by
  unfold jpixmax
  rw [yCenter_of_label_y cfgS pS rfl]
  show clipZ (rint ((pS.y + testKernel.radkernel * pS.h - (0 + 0)) / 1)) 0 4 = 2
  exact clip_rint_eval _ 2 4
    (by norm_num [pS, mkPart, testKernel]) (by norm_num) (by norm_num)

/-- Evaluation of one particle's contribution at cell `(1, 1)` when its loop
ranges are `[1, 2)` on both axes. -/
theorem partTouch_eval_11 (c : Config) (p : Part)
    (e1 : ipixmin c p = 1) (e2 : ipixmax c p = 2)
    (e3 : jpixmin c p = 1) (e4 : jpixmax c p = 2) :
    partTouch c p 1 1 =
      p.term * c.kernel.wsq
        (((c.xmin + (1 + 1 / 2) * c.pixwidthx - p.x) ^ 2) * (1 / p.h ^ 2) +
          (c.ymin + (1 + 1 / 2) * c.pixwidthy - p.y) *
            (c.ymin + (1 + 1 / 2) * c.pixwidthy - p.y) * (1 / p.h ^ 2)) := by
  unfold partTouch
  rw [if_pos ⟨(mem_jVisited c p 1).mpr (by rw [e3, e4]; omega),
    (mem_iVisited c p 1).mpr (by rw [e1, e2]; omega)⟩]
  unfold dx2i dy2
  rw [if_pos (show ipixmin c p ≤ ((1 : ℕ) : ℤ) ∧ ((1 : ℕ) : ℤ) < ipixmax c p from
    by rw [e1, e2]; omega)]
  norm_num

/-- Counterexample to claim C8 as stated: with the target column chosen as
the `x` column itself (a valid input), translating all particle x-positions
by `1` (and y by `0`) together with the origin changes the output: the
target values — being the x-positions — move with the translation, so cell
`(1,1)` holds `40` instead of `24`. -/
theorem translation_invariance_counterexample :
    getGrid (interpolate2D (dfShift (dfShift dataC8 "x" 1) "y" 0) "x" "y" "x" testKernel
        1 1 (0 + 1) (0 + 0) 4 4) 1 1 ≠
      getGrid (interpolate2D dataC8 "x" "y" "x" testKernel 1 1 0 0 4 4) 1 1 := by
  have hsx : dfGet (dfShift (dfShift dataC8 "x" 1) "y" 0) "x" = some [3 / 2 + 1] := by
    rw [dfGet_dfShift, if_neg (by decide), dfGet_dfShift, if_pos rfl]
    rfl
  have hsy : dfGet (dfShift (dfShift dataC8 "x" 1) "y" 0) "y" = some [3 / 2 + 0] := by
    rw [dfGet_dfShift, if_pos rfl, dfGet_dfShift, if_neg (by decide)]
    rfl
  have hsh : dfGet (dfShift (dfShift dataC8 "x" 1) "y" 0) "h" = some [1 / 4] := by
    rw [dfGet_dfShift, if_neg (by decide), dfGet_dfShift, if_neg (by decide)]
    rfl
  have hsm : dfGet (dfShift (dfShift dataC8 "x" 1) "y" 0) "m" = some [1] := by
    rw [dfGet_dfShift, if_neg (by decide), dfGet_dfShift, if_neg (by decide)]
    rfl
  have hsr : dfGet (dfShift (dfShift dataC8 "x" 1) "y" 0) "rho" = some [1] := by
    rw [dfGet_dfShift, if_neg (by decide), dfGet_dfShift, if_neg (by decide)]
    rfl
  rw [interpolate2D_eq_ok (dfShift (dfShift dataC8 "x" 1) "y" 0) "x" "y" "x" testKernel
      1 1 (0 + 1) (0 + 0) 4 4 [3 / 2 + 1] [3 / 2 + 0] [1 / 4] [1] [1] [3 / 2 + 1]
      (by norm_num) (by norm_num) (by norm_num) (by norm_num) rfl
      hsx hsy hsh hsm hsr hsx (by simp [partsColumns])
      (by simp [partsColumnsLine64, partsColumns]),
    interpolate2D_eq_ok dataC8 "x" "y" "x" testKernel 1 1 0 0 4 4
      [3 / 2] [3 / 2] [1 / 4] [1] [1] [3 / 2]
      (by norm_num) (by norm_num) (by norm_num) (by norm_num) rfl
      rfl rfl rfl rfl rfl rfl (by simp [partsColumns])
      (by simp [partsColumnsLine64, partsColumns]),
    getGrid_ok, getGrid_ok, finalGrid_singleton, finalGrid_singleton]
  rw [if_pos (show (0 : ℚ) <
      (mkPart (3 / 2 + 1) (3 / 2 + 0) (1 / 4) 1 1 (3 / 2 + 1)).weight from
      by norm_num [mkPart]),
    if_pos (show (0 : ℚ) < (mkPart (3 / 2) (3 / 2) (1 / 4) 1 1 (3 / 2)).weight from
      by norm_num [mkPart])]
  show partTouch cfgS pS 1 1 ≠ partTouch cfg0 pT 1 1
  rw [partTouch_eval_11 cfgS pS ipixmin_pS ipixmax_pS jpixmin_pS jpixmax_pS,
    partTouch_eval_11 cfg0 pT ipixmin_pT ipixmax_pT jpixmin_pT jpixmax_pT]
  norm_num [pS, pT, cfgS, cfg0, mkPart, testKernel]

/-! Lemmas for the `SarracenDataFrame` claims. -/

theorem dfGet_dfSet_same (df : DFrame) (c : String) (v : List ℚ) :
    dfGet (dfSet df c v) c = some v := by
  unfold dfSet
  split_ifs with hx
  · unfold dfGet at hx ⊢
    rw [List.find?_map]
    have hpred : ((fun q : String × List ℚ => decide (q.1 = c)) ∘
        (fun p : String × List ℚ => if p.1 = c then (c, v) else p)) =
        (fun p : String × List ℚ => decide (p.1 = c)) := by
      funext p
      by_cases hp : p.1 = c <;> simp [hp]
    rw [hpred]
    rcases hfind : df.find? (fun p => decide (p.1 = c)) with _ | q
    · rw [hfind] at hx
      simp at hx
    · have hq1 : q.1 = c := by simpa using List.find?_some hfind
      rw [hfind, Option.map_some', Option.map_some', if_pos hq1]
  · unfold dfGet at hx ⊢
    rw [List.find?_append]
    rcases hfind : df.find? (fun p => decide (p.1 = c)) with _ | q
    · rw [hfind]
      simp
    · rw [hfind] at hx
      simp at hx

theorem mem_dfCols_dfSet (df : DFrame) (c : String) (v : List ℚ) :
    c ∈ dfCols (dfSet df c v) := by
  unfold dfSet
  split_ifs with hx
  · unfold dfGet at hx
    rcases hfind : df.find? (fun p => decide (p.1 = c)) with _ | q
    · rw [hfind] at hx
      simp at hx
    · have hq1 : q.1 = c := by simpa using List.find?_some hfind
      have hqmem : q ∈ df := List.mem_of_find?_eq_some hfind
      unfold dfCols
      rw [List.map_map]
      refine List.mem_map.mpr ⟨q, hqmem, ?_⟩
      simp [hq1]
  · unfold dfCols
    simp

theorem setXcol_df (s : SarracenDataFrame) (v : Option String) : (setXcol s v).df = s.df := by
  unfold setXcol
  split_ifs <;> rfl

theorem setYcol_df (s : SarracenDataFrame) (v : Option String) : (setYcol s v).df = s.df := by
  unfold setYcol
  split_ifs <;> rfl

theorem setZcol_df (s : SarracenDataFrame) (v : Option String) : (setZcol s v).df = s.df := by
  unfold setZcol
  split_ifs <;> rfl

theorem setHcol_df (s : SarracenDataFrame) (v : Option String) : (setHcol s v).df = s.df := by
  unfold setHcol
  split_ifs <;> rfl

theorem setMcol_df (s : SarracenDataFrame) (v : Option String) : (setMcol s v).df = s.df := by
  unfold setMcol
  split_ifs <;> rfl

theorem setRhocol_df (s : SarracenDataFrame) (v : Option String) : (setRhocol s v).df = s.df := by
  unfold setRhocol
  split_ifs <;> rfl

theorem setVxcol_df (s : SarracenDataFrame) (v : Option String) : (setVxcol s v).df = s.df := by
  unfold setVxcol
  split_ifs <;> rfl

theorem setVycol_df (s : SarracenDataFrame) (v : Option String) : (setVycol s v).df = s.df := by
  unfold setVycol
  split_ifs <;> rfl

theorem setVzcol_df (s : SarracenDataFrame) (v : Option String) : (setVzcol s v).df = s.df := by
  unfold setVzcol
  split_ifs <;> rfl

/-- The constructor leaves the particle data and `params` untouched. -/
theorem mkSarracenDataFrame_df (data : DFrame) (params : List (String × ℚ)) :
    (mkSarracenDataFrame data params).df = data ∧
    (mkSarracenDataFrame data params).params = params := by
  constructor <;>
  · simp only [mkSarracenDataFrame, identifySpecialColumns, setXcol, setYcol, setZcol,
      setHcol, setMcol, setRhocol, setVxcol, setVycol, setVzcol,
      apply_ite SarracenDataFrame.df, apply_ite SarracenDataFrame.params, ite_self]

/-- When the dataset has no column named `h`, the constructor records no
smoothing-length column (and raises nothing). -/
theorem mkSarracenDataFrame_hcol_none (data : DFrame) (params : List (String × ℚ))
    (hno : "h" ∉ dfCols data) : (mkSarracenDataFrame data params).hcol = none := by
  simp only [mkSarracenDataFrame, identifySpecialColumns, setXcol, setYcol, setZcol,
    setHcol, setMcol, setRhocol, setVxcol, setVycol, setVzcol,
    apply_ite SarracenDataFrame.hcol, ite_self, hno, if_false]

/-- Helper: after writing the `rho` column, storing the label `rho` through
the setter succeeds, since the column now exists. -/
theorem setRhocol_after_dfSet (t : SarracenDataFrame) (v : List ℚ) :
    (setRhocol { t with df := dfSet t.df "rho" v } (some "rho")).rhocol = some "rho" := by
  unfold setRhocol
  rw [if_pos (Or.inl (by simp [optMem, mem_dfCols_dfSet]))]

/-- Claim C9: `calc_density` raises a `KeyError` if and only if the
smoothing-length column is missing, or `hfact` is missing from `params`, or
neither a per-particle mass column nor a `mass` entry in `params` is
present; on success it creates a column `rho = mass * (hfact / h) ^ d` with
`d` the data's dimensionality, preferring the per-particle mass column over
`params['mass']`; and a dataset lacking these sources still constructs
without error — the `KeyError` occurs only at the `calc_density` call. -/
theorem calc_density_spec :
    (∀ s : SarracenDataFrame,
      (∃ e, calc_density s = Except.error e) ↔
        (¬ optMem s.hcol (dfCols s.df) = true ∨
         ¬ (paramGet s.params "hfact").isSome = true ∨
         (¬ optMem s.mcol (dfCols s.df) = true ∧
          ¬ (paramGet s.params "mass").isSome = true))) ∧
    (∀ (s : SarracenDataFrame) (e : PyErr), calc_density s = Except.error e →
      ∃ msg, e = PyErr.keyError msg) ∧
    (∀ (s : SarracenDataFrame) (ch cm : String) (hs msl : List ℚ) (hf : ℚ),
      s.hcol = some ch → ch ∈ dfCols s.df → dfGet s.df ch = some hs →
      s.mcol = some cm → cm ∈ dfCols s.df → dfGet s.df cm = some msl →
      paramGet s.params "hfact" = some hf →
      ∃ s2, calc_density s = Except.ok s2 ∧
        dfGet s2.df "rho" =
          some (List.zipWith (fun mv hv => mv * (hf / hv) ^ get_dim s) msl hs) ∧
        s2.rhocol = some "rho") ∧
    (∀ (s : SarracenDataFrame) (ch : String) (hs : List ℚ) (mv hf : ℚ),
      s.hcol = some ch → ch ∈ dfCols s.df → dfGet s.df ch = some hs →
      optMem s.mcol (dfCols s.df) = false →
      paramGet s.params "mass" = some mv →
      paramGet s.params "hfact" = some hf →
      ∃ s2, calc_density s = Except.ok s2 ∧
        dfGet s2.df "rho" = some (hs.map (fun hv => mv * (hf / hv) ^ get_dim s)) ∧
        s2.rhocol = some "rho") ∧
    (∀ (data : DFrame) (params : List (String × ℚ)), "h" ∉ dfCols data →
      (mkSarracenDataFrame data params).df = data ∧
      ∃ e, calc_density (mkSarracenDataFrame data params) = Except.error e) := by
  refine ⟨?_, ?_, ?_, ?_, ?_⟩
  · intro s
    unfold calc_density
    by_cases hA : optMem s.hcol (dfCols s.df) = true
    · rw [if_neg (not_not_intro hA)]
      by_cases hB : (paramGet s.params "hfact").isSome = true
      · rw [if_neg (not_not_intro hB)]
        by_cases hCD : ¬ optMem s.mcol (dfCols s.df) = true ∧
            ¬ (paramGet s.params "mass").isSome = true
        · rw [if_pos hCD]
          exact ⟨fun _ => Or.inr (Or.inr hCD), fun _ => ⟨_, rfl⟩⟩
        · rw [if_neg hCD]
          constructor
          · rintro ⟨e, he⟩
            simp at he
          · rintro (h | h | h)
            · exact absurd hA h
            · exact absurd hB h
            · exact absurd h hCD
      · rw [if_pos hB]
        exact ⟨fun _ => Or.inr (Or.inl hB), fun _ => ⟨_, rfl⟩⟩
    · rw [if_pos hA]
      exact ⟨fun _ => Or.inl hA, fun _ => ⟨_, rfl⟩⟩
  · intro s e he
    unfold calc_density at he
    by_cases hA : optMem s.hcol (dfCols s.df) = true
    · rw [if_neg (not_not_intro hA)] at he
      by_cases hB : (paramGet s.params "hfact").isSome = true
      · rw [if_neg (not_not_intro hB)] at he
        by_cases hCD : ¬ optMem s.mcol (dfCols s.df) = true ∧
            ¬ (paramGet s.params "mass").isSome = true
        · rw [if_pos hCD] at he
          simp only [Except.error.injEq] at he
          exact ⟨_, he.symm⟩
        · rw [if_neg hCD] at he
          simp at he
      · rw [if_pos hB] at he
        simp only [Except.error.injEq] at he
        exact ⟨_, he.symm⟩
    · rw [if_pos hA] at he
      simp only [Except.error.injEq] at he
      exact ⟨_, he.symm⟩
  · intro s ch cm hs msl hf h1 h2 h3 h4 h5 h6 h7
    have hch : optMem s.hcol (dfCols s.df) = true := by
      rw [h1]
      simp [optMem, h2]
    have hcm : optMem s.mcol (dfCols s.df) = true := by
      rw [h4]
      simp [optMem, h5]
    have hhf : (paramGet s.params "hfact").isSome = true := by
      rw [h7]
      rfl
    unfold calc_density
    rw [if_neg (not_not_intro hch), if_neg (not_not_intro hhf),
      if_neg (fun hcd => absurd hcm hcd.1)]
    refine ⟨_, rfl, ?_, setRhocol_after_dfSet _ _⟩
    rw [setRhocol_df, dfGet_dfSet_same, if_pos hcm]
    simp only [h1, h4, h7, Option.getD_some, h3, h6]
  · intro s ch hs mv hf h1 h2 h3 h4 h5 h6
    have hch : optMem s.hcol (dfCols s.df) = true := by
      rw [h1]
      simp [optMem, h2]
    have hhf : (paramGet s.params "hfact").isSome = true := by
      rw [h6]
      rfl
    have hmv : (paramGet s.params "mass").isSome = true := by
      rw [h5]
      rfl
    unfold calc_density
    rw [if_neg (not_not_intro hch), if_neg (not_not_intro hhf),
      if_neg (fun hcd => absurd hmv hcd.2)]
    refine ⟨_, rfl, ?_, setRhocol_after_dfSet _ _⟩
    rw [setRhocol_df, dfGet_dfSet_same, if_neg (by simp [h4])]
    simp only [h1, h5, h6, Option.getD_some, h3]
  · intro data params hno
    refine ⟨(mkSarracenDataFrame_df data params).1, ?_⟩
    have hh := mkSarracenDataFrame_hcol_none data params hno
    refine ⟨PyErr.keyError "Missing smoothing length data in this SarracenDataFrame", ?_⟩
    unfold calc_density
    rw [if_pos (by rw [hh]; simp [optMem])]

/-- Concrete `SarracenDataFrame` state for the witnesses: the test particle
data, `hfact = 3` in `params`, and the roles the constructor would
identify. -/
def sW : SarracenDataFrame :=
  ⟨testData, [("hfact", 3)], some "x", some "y", none, some "h", some "m", none,
   none, none, none, [], CubicSplineKernel⟩

/-- Witness for C9: per-particle mass path at a concrete frame. -/
theorem calc_density_spec_witness :
    ∃ s2, calc_density sW = Except.ok s2 ∧
      dfGet s2.df "rho" =
        some (List.zipWith (fun mv hv => mv * ((3 : ℚ) / hv) ^ get_dim sW) [1] [1 / 4]) ∧
      s2.rhocol = some "rho" :=
  calc_density_spec.2.2.1 sW "h" "m" [1 / 4] [1] 3 rfl (by decide) rfl rfl (by decide)
    rfl rfl

/-- Validity of a stored column-role label: `None` or the name of an
existing column. -/
def labelOk (df : DFrame) (o : Option String) : Prop :=
  o = none ∨ optMem o (dfCols df) = true

/-- The column-role invariant: every stored label is `None` or an existing
column name. -/
def colLabelsValid (s : SarracenDataFrame) : Prop :=
  labelOk s.df s.xcol ∧ labelOk s.df s.ycol ∧ labelOk s.df s.zcol ∧
  labelOk s.df s.hcol ∧ labelOk s.df s.mcol ∧ labelOk s.df s.rhocol ∧
  labelOk s.df s.vxcol ∧ labelOk s.df s.vycol ∧ labelOk s.df s.vzcol

theorem setXcol_valid (s : SarracenDataFrame) (v : Option String)
    (hInv : colLabelsValid s) : colLabelsValid (setXcol s v) := by
  unfold setXcol
  split_ifs with hc
  · obtain ⟨a1, a2, a3, a4, a5, a6, a7, a8, a9⟩ := hInv
    exact ⟨hc.symm, a2, a3, a4, a5, a6, a7, a8, a9⟩
  · exact hInv

theorem setYcol_valid (s : SarracenDataFrame) (v : Option String)
    (hInv : colLabelsValid s) : colLabelsValid (setYcol s v) := by
  unfold setYcol
  split_ifs with hc
  · obtain ⟨a1, a2, a3, a4, a5, a6, a7, a8, a9⟩ := hInv
    exact ⟨a1, hc.symm, a3, a4, a5, a6, a7, a8, a9⟩
  · exact hInv

theorem setZcol_valid (s : SarracenDataFrame) (v : Option String)
    (hInv : colLabelsValid s) : colLabelsValid (setZcol s v) := by
  unfold setZcol
  split_ifs with hc
  · obtain ⟨a1, a2, a3, a4, a5, a6, a7, a8, a9⟩ := hInv
    exact ⟨a1, a2, hc.symm, a4, a5, a6, a7, a8, a9⟩
  · exact hInv

theorem setHcol_valid (s : SarracenDataFrame) (v : Option String)
    (hInv : colLabelsValid s) : colLabelsValid (setHcol s v) := by
  unfold setHcol
  split_ifs with hc
  · obtain ⟨a1, a2, a3, a4, a5, a6, a7, a8, a9⟩ := hInv
    exact ⟨a1, a2, a3, hc.symm, a5, a6, a7, a8, a9⟩
  · exact hInv

theorem setMcol_valid (s : SarracenDataFrame) (v : Option String)
    (hInv : colLabelsValid s) : colLabelsValid (setMcol s v) := by
  unfold setMcol
  split_ifs with hc
  · obtain ⟨a1, a2, a3, a4, a5, a6, a7, a8, a9⟩ := hInv
    exact ⟨a1, a2, a3, a4, hc.symm, a6, a7, a8, a9⟩
  · exact hInv

theorem setRhocol_valid (s : SarracenDataFrame) (v : Option String)
    (hInv : colLabelsValid s) : colLabelsValid (setRhocol s v) := by
  unfold setRhocol
  split_ifs with hc
  · obtain ⟨a1, a2, a3, a4, a5, a6, a7, a8, a9⟩ := hInv
    exact ⟨a1, a2, a3, a4, a5, hc.symm, a7, a8, a9⟩
  · exact hInv

theorem setVxcol_valid (s : SarracenDataFrame) (v : Option String)
    (hInv : colLabelsValid s) : colLabelsValid (setVxcol s v) := by
  unfold setVxcol
  split_ifs with hc
  · obtain ⟨a1, a2, a3, a4, a5, a6, a7, a8, a9⟩ := hInv
    exact ⟨a1, a2, a3, a4, a5, a6, hc.symm, a8, a9⟩
  · exact hInv

theorem setVycol_valid (s : SarracenDataFrame) (v : Option String)
    (hInv : colLabelsValid s) : colLabelsValid (setVycol s v) := by
  unfold setVycol
  split_ifs with hc
  · obtain ⟨a1, a2, a3, a4, a5, a6, a7, a8, a9⟩ := hInv
    exact ⟨a1, a2, a3, a4, a5, a6, a7, hc.symm, a9⟩
  · exact hInv

theorem setVzcol_valid (s : SarracenDataFrame) (v : Option String)
    (hInv : colLabelsValid s) : colLabelsValid (setVzcol s v) := by
  unfold setVzcol
  split_ifs with hc
  · obtain ⟨a1, a2, a3, a4, a5, a6, a7, a8, a9⟩ := hInv
    exact ⟨a1, a2, a3, a4, a5, a6, a7, a8, hc.symm⟩
  · exact hInv

/-- Claim C10: every column-role setter preserves the invariant that the
stored label is `None` or an existing column name; assigning a label that is
neither leaves the dataframe unchanged rather than raising; and assigning a
non-kernel object to the `kernel` property leaves the kernel unchanged, so
the stored kernel is always an actual kernel. -/
theorem setters_preserve_validity (s : SarracenDataFrame) (hInv : colLabelsValid s) :
    (∀ v : Option String,
      colLabelsValid (setXcol s v) ∧ colLabelsValid (setYcol s v) ∧
      colLabelsValid (setZcol s v) ∧ colLabelsValid (setHcol s v) ∧
      colLabelsValid (setMcol s v) ∧ colLabelsValid (setRhocol s v) ∧
      colLabelsValid (setVxcol s v) ∧ colLabelsValid (setVycol s v) ∧
      colLabelsValid (setVzcol s v)) ∧
    (∀ v : Option String, ¬ (optMem v (dfCols s.df) = true ∨ v = none) →
      setXcol s v = s ∧ setYcol s v = s ∧ setZcol s v = s ∧ setHcol s v = s ∧
      setMcol s v = s ∧ setRhocol s v = s ∧ setVxcol s v = s ∧ setVycol s v = s ∧
      setVzcol s v = s) ∧
    (setKernel s PyObj.nonKernel = s) ∧
    (∀ v : PyObj, (setKernel s v).kernel = s.kernel ∨
      ∃ k, v = PyObj.ofKernel k ∧ (setKernel s v).kernel = k) := by
  refine ⟨?_, ?_, rfl, ?_⟩
  · intro v
    exact ⟨setXcol_valid s v hInv, setYcol_valid s v hInv, setZcol_valid s v hInv,
      setHcol_valid s v hInv, setMcol_valid s v hInv, setRhocol_valid s v hInv,
      setVxcol_valid s v hInv, setVycol_valid s v hInv, setVzcol_valid s v hInv⟩
  · intro v h
    refine ⟨?_, ?_, ?_, ?_, ?_, ?_, ?_, ?_, ?_⟩ <;>
    · first
        | (unfold setXcol; rw [if_neg h])
        | (unfold setYcol; rw [if_neg h])
        | (unfold setZcol; rw [if_neg h])
        | (unfold setHcol; rw [if_neg h])
        | (unfold setMcol; rw [if_neg h])
        | (unfold setRhocol; rw [if_neg h])
        | (unfold setVxcol; rw [if_neg h])
        | (unfold setVycol; rw [if_neg h])
        | (unfold setVzcol; rw [if_neg h])
  · intro v
    cases v with
    | ofKernel k => exact Or.inr ⟨k, rfl, rfl⟩
    | nonKernel => exact Or.inl rfl

/-- Witness for C10 at the concrete frame `sW` and the non-column label
`nope`. -/
theorem setters_preserve_validity_witness :
    colLabelsValid (setXcol sW (some "nope")) ∧ setXcol sW (some "nope") = sW ∧
    setKernel sW PyObj.nonKernel = sW := by
  have h := setters_preserve_validity sW
    ⟨Or.inr (by decide), Or.inr (by decide), Or.inl rfl, Or.inr (by decide),
     Or.inr (by decide), Or.inl rfl, Or.inl rfl, Or.inl rfl, Or.inl rfl⟩
  have hbad : ¬ (optMem (some "nope") (dfCols sW.df) = true ∨
      (some "nope" : Option String) = none) := by decide
  exact ⟨(h.1 (some "nope")).1, ((h.2.1 (some "nope")) hbad).1, h.2.2.1⟩

end Sarracen
